import Mathlib

/-!
# Verification of the yoku natural-language workout-command pipeline

Shallow embedding of the `yoku-core` Rust crate (sessions, sets, reference
resolution, LLM-output deserialization and the command executor), together
with proofs settling the frozen claims about its specification.

Modelling conventions:
* `i64`/`i32` values are modelled as `Int`; where Rust performs an `as` cast
  whose wrapping/saturating behaviour matters, it is made explicit
  (`wrapI32`, `satI32`).
* `f64`/`f32` values are modelled by `F64`: a finite rational or one of the
  non-finite markers.  The embedded operations never do float arithmetic on
  stored weights/RPE values; they only copy, compare to constants, round and
  format them, so a rational carrier is exact for every input exercised here.
* Database tables are Lean lists in insertion (rowid) order; SQL queries are
  translated to filters/sorts/folds over those lists.  `fetch_one` misses are
  `Except.error`, mirroring `sqlx`.
* `HashMap`/`HashSet` iteration order is nondeterministic in Rust; the model
  linearizes it as insertion order.  No settled claim depends on that order.
* ASCII inputs only: `to_lowercase`/`trim`/whitespace splitting are modelled
  for the ASCII range, which covers every string the claims exercise.
-/

namespace Yoku

/-! ## Character and list helpers (Rust `str` operations) -/

/-- Rust `char::is_whitespace`, restricted to the ASCII whitespace set
(the only whitespace appearing in the modelled inputs). -/
def isWsChar (c : Char) : Bool :=
  c = ' ' || c = '\t' || c = '\n' || c = '\r' || c = '\x0b' || c = '\x0c'

/-- ASCII lowercasing of one character (Rust `char::to_lowercase` on ASCII). -/
def lowerChar (c : Char) : Char :=
  if 'A' ≤ c && c ≤ 'Z' then Char.ofNat (c.toNat + 32) else c

/-- Rust `str::to_lowercase` (ASCII fragment). -/
def lowerL (l : List Char) : List Char := l.map lowerChar

/-- Drop leading whitespace (the first half of Rust `str::trim`). -/
def dropLeadWs (l : List Char) : List Char := l.dropWhile isWsChar

/-- Drop trailing whitespace (the second half of Rust `str::trim`). -/
def dropTrailWs (l : List Char) : List Char :=
  ((l.reverse).dropWhile isWsChar).reverse

/-- Rust `str::trim` on a character list. -/
def trimL (l : List Char) : List Char := dropTrailWs (dropLeadWs l)

/-- Rust `str::trim`. -/
def rustTrim (s : String) : String := ⟨trimL s.data⟩

/-- `leadMatch pre l` is `some rest` when `l = pre ++ rest`
(Rust `str::strip_prefix`). -/
def leadMatch : List Char → List Char → Option (List Char)
  | [], l => some l
  | _ :: _, [] => none
  | p :: ps, c :: cs => if p = c then leadMatch ps cs else none

/-- `trailMatch suf l` is `some front` when `l = front ++ suf`
(Rust `str::strip_suffix`). -/
def trailMatch (suf l : List Char) : Option (List Char) :=
  (leadMatch suf.reverse l.reverse).map List.reverse

/-- Does `pre` occur at the head of `l`? (Rust `str::starts_with`.) -/
def leadEq : List Char → List Char → Bool
  | [], _ => true
  | _ :: _, [] => false
  | p :: ps, c :: cs => p = c && leadEq ps cs

/-- Does `needle` occur anywhere inside the haystack? (Rust `str::contains`.) -/
def occursIn (needle : List Char) : List Char → Bool
  | [] => needle.isEmpty
  | c :: cs => leadEq needle (c :: cs) || occursIn needle cs

/-- String-level wrapper for `occursIn`. -/
def containsSub (hay needle : String) : Bool := occursIn needle.data hay.data

/-- Rust `str::split_whitespace`: maximal non-whitespace runs. -/
def splitWs : List Char → List (List Char)
  | [] => []
  | c :: cs =>
    if isWsChar c then splitWs cs
    else
      (c :: cs.takeWhile (fun d => !isWsChar d)) ::
        splitWs (cs.dropWhile (fun d => !isWsChar d))
termination_by l => l.length
decreasing_by
  all_goals simp only [List.length_cons]
  · omega
  · have h := ((cs.dropWhile_sublist (fun d => !isWsChar d))).length_le
    omega

/-- Accumulate decimal digits (helper for `parseUsizeL`). -/
def digitsAcc : Nat → List Char → Option Nat
  | acc, [] => some acc
  | acc, c :: cs =>
    if c.isDigit then digitsAcc (acc * 10 + (c.toNat - 48)) cs else none

/-- Rust `str::parse::<usize>()`: optional leading `+`, then one or more
decimal digits, value below `2^64`. -/
def parseUsizeL (tok : List Char) : Option Nat :=
  let body := match tok with
    | '+' :: rest => rest
    | l => l
  match body with
  | [] => none
  | _ :: _ =>
    match digitsAcc 0 body with
    | none => none
    | some v => if v < 2 ^ 64 then some v else none

/-- Stable insertion into a `le`-sorted list: the new element goes after
every element it ties with. -/
def insertB (le : α → α → Bool) (x : α) : List α → List α
  | [] => [x]
  | y :: ys => if le y x then y :: insertB le x ys else x :: y :: ys

/-- Stable sort (models Rust's stable `slice::sort_by_key`). -/
def sortByStable (le : α → α → Bool) (l : List α) : List α :=
  l.foldl (fun acc x => insertB le x acc) []

/-! ## The `f64` model -/

/-- Model of an `f64`/`f32` value: a finite rational or a non-finite marker. -/
inductive F64 where
  | finite (q : ℚ)
  | nan
  | inf
  | neginf
deriving DecidableEq, Repr

/-- Rust `f64::is_finite`. -/
def F64.isFinite : F64 → Bool
  | .finite _ => true
  | _ => false

/-- Rust `f >= 0.0` (false for NaN). -/
def F64.nonneg : F64 → Bool
  | .finite q => decide (0 ≤ q)
  | .inf => true
  | _ => false

/-- Rust `f64::round`: round half away from zero. -/
def roundHalfAway (q : ℚ) : ℤ :=
  if 0 ≤ q then ⌊q + 1 / 2⌋ else -⌊-q + 1 / 2⌋

/-- Saturating `as i32` cast from a mathematical integer. -/
def satI32 (n : ℤ) : ℤ := max (-(2 ^ 31)) (min n (2 ^ 31 - 1))

/-- Wrapping `as i32` cast from an `i64` value. -/
def wrapI32 (n : ℤ) : ℤ := (n + 2 ^ 31) % 2 ^ 32 - 2 ^ 31

/-! ## JSON values and the `serde_json` text parser

`serde_json::Value` distinguishes integer number tokens from float tokens;
the parser below mirrors `serde_json::from_str` on the document subset the
pipeline exchanges (objects, arrays, strings with simple escapes, numbers,
booleans, null).  A number token without `.`/`e`/`E` becomes `Json.int`,
any other number token becomes a finite `Json.float`. -/

inductive Json where
  | null
  | bool (b : Bool)
  | int (n : ℤ)
  | float (f : F64)
  | str (s : String)
  | arr (elems : List Json)
  | obj (fields : List (String × Json))
deriving Repr, Inhabited

/-- JSON insignificant whitespace. -/
def isJsonWs (c : Char) : Bool :=
  c = ' ' || c = '\t' || c = '\n' || c = '\r'

/-- Skip insignificant whitespace. -/
def skipWsJ (l : List Char) : List Char := l.dropWhile isJsonWs

/-- Parse the body of a JSON string literal (after the opening quote),
returning the decoded characters and the remainder after the closing
quote. -/
def parseStrBody : List Char → Except String (List Char × List Char)
  | [] => .error "EOF while parsing a string"
  | '"' :: rest => .ok ([], rest)
  | '\\' :: rest =>
    match rest with
    | '"' :: r => (fun (s, t) => ('"' :: s, t)) <$> parseStrBody r
    | '\\' :: r => (fun (s, t) => ('\\' :: s, t)) <$> parseStrBody r
    | '/' :: r => (fun (s, t) => ('/' :: s, t)) <$> parseStrBody r
    | 'n' :: r => (fun (s, t) => ('\n' :: s, t)) <$> parseStrBody r
    | 't' :: r => (fun (s, t) => ('\t' :: s, t)) <$> parseStrBody r
    | 'r' :: r => (fun (s, t) => ('\r' :: s, t)) <$> parseStrBody r
    | 'b' :: r => (fun (s, t) => ('\x08' :: s, t)) <$> parseStrBody r
    | 'f' :: r => (fun (s, t) => ('\x0c' :: s, t)) <$> parseStrBody r
    | _ => .error "invalid escape"
  | c :: rest => (fun (s, t) => (c :: s, t)) <$> parseStrBody rest

/-- Numeric value of a digit run, as a natural number. -/
def digitsNat (ds : List Char) : ℕ :=
  ds.foldl (fun acc c => acc * 10 + (c.toNat - 48)) 0

/-- Parse a JSON number starting at the head of `l`; returns the value and
the remainder.  Mirrors `serde_json`: an integer-shaped token yields an
integer value, a token with a fraction or exponent yields a float. -/
def parseNum (l : List Char) : Except String (Json × List Char) :=
  let (neg, l1) := match l with
    | '-' :: r => (true, r)
    | _ => (false, l)
  let ds := l1.takeWhile Char.isDigit
  let l2 := l1.dropWhile Char.isDigit
  if ds.isEmpty then .error "invalid number" else
  let intPart : ℚ := (digitsNat ds : ℚ)
  let (fracPart, isFloat1, l3) := match l2 with
    | '.' :: r =>
      let fs := r.takeWhile Char.isDigit
      ((digitsNat fs : ℚ) / ((10 : ℚ) ^ fs.length), true, r.dropWhile Char.isDigit)
    | _ => ((0 : ℚ), false, l2)
  let (expVal, isFloat2, l4) := match l3 with
    | 'e' :: r | 'E' :: r =>
      let (eneg, r1) := match r with
        | '-' :: r2 => (true, r2)
        | '+' :: r2 => (false, r2)
        | _ => (false, r)
      let es := r1.takeWhile Char.isDigit
      ((if eneg then -(digitsNat es : ℤ) else (digitsNat es : ℤ)), true,
        r1.dropWhile Char.isDigit)
    | _ => ((0 : ℤ), false, l3)
  let mag : ℚ := (intPart + fracPart) * (10 : ℚ) ^ expVal
  let v : ℚ := if neg then -mag else mag
  if isFloat1 || isFloat2 then
    .ok (.float (.finite v), l4)
  else
    .ok (.int (if neg then -(digitsNat ds : ℤ) else (digitsNat ds : ℤ)), l4)

mutual

/-- Parse one JSON value at the head of `l` (whitespace already skipped). -/
def parseVal : ℕ → List Char → Except String (Json × List Char)
  | 0, _ => .error "recursion limit"
  | _ + 1, [] => .error "EOF while parsing a value"
  | fuel + 1, c :: cs =>
    match c, cs with
    | 'n', 'u' :: 'l' :: 'l' :: rest => .ok (.null, rest)
    | 't', 'r' :: 'u' :: 'e' :: rest => .ok (.bool true, rest)
    | 'f', 'a' :: 'l' :: 's' :: 'e' :: rest => .ok (.bool false, rest)
    | '"', rest =>
      (fun (s, t) => (Json.str ⟨s⟩, t)) <$> parseStrBody rest
    | '[', rest =>
      match skipWsJ rest with
      | ']' :: rest2 => .ok (.arr [], rest2)
      | rest2 =>
        (fun (es, t) => (Json.arr es, t)) <$> parseArrElems fuel rest2
    | '{', rest =>
      match skipWsJ rest with
      | '}' :: rest2 => .ok (.obj [], rest2)
      | rest2 =>
        (fun (fs, t) => (Json.obj fs, t)) <$> parseObjFields fuel rest2
    | _, _ => parseNum (c :: cs)

/-- Parse the elements of a non-empty array (at the first element). -/
def parseArrElems : ℕ → List Char → Except String (List Json × List Char)
  | 0, _ => .error "recursion limit"
  | fuel + 1, l => do
    let (v, rest) ← parseVal fuel l
    match skipWsJ rest with
    | ',' :: rest2 =>
      let (vs, t) ← parseArrElems fuel (skipWsJ rest2)
      .ok (v :: vs, t)
    | ']' :: rest2 => .ok ([v], rest2)
    | _ => .error "expected comma or end of array"

/-- Parse the members of a non-empty object (at the first key). -/
def parseObjFields : ℕ → List Char → Except String (List (String × Json) × List Char)
  | 0, _ => .error "recursion limit"
  | fuel + 1, l =>
    match l with
    | '"' :: rest => do
      let (k, rest1) ← parseStrBody rest
      match skipWsJ rest1 with
      | ':' :: rest2 => do
        let (v, rest3) ← parseVal fuel (skipWsJ rest2)
        match skipWsJ rest3 with
        | ',' :: rest4 =>
          let (fs, t) ← parseObjFields fuel (skipWsJ rest4)
          .ok ((⟨k⟩, v) :: fs, t)
        | '}' :: rest4 => .ok ([(⟨k⟩, v)], rest4)
        | _ => .error "expected comma or end of object"
      | _ => .error "expected colon"
    | _ => .error "key must be a string"

end

/-- `serde_json::from_str::<Value>`: parse a complete document and require
only whitespace to follow. -/
def parseJsonText (s : String) : Except String Json := do
  let l := skipWsJ s.data
  let (v, rest) ← parseVal (l.length + 1) l
  if (skipWsJ rest).isEmpty then .ok v else .error "trailing characters"

/-- Look a key up in a parsed object (first occurrence, as serde does for
the structs modelled here, whose inputs have no duplicate keys). -/
def Json.getField : Json → String → Option Json
  | .obj fields, k => (fields.find? (fun kv => kv.1 = k)).map (·.2)
  | _, _ => none

/-- `Value::as_str`. -/
def Json.asStr : Json → Option String
  | .str s => some s
  | _ => none

/-! ## `strip_code_fences` (yoku-core/src/llm/mod.rs lines 63-74) -/

/-- List-level body of `strip_code_fences`: trim, strip a leading
` ```json ` (else a bare ` ``` `), strip a trailing ` ``` `, trim again. -/
def stripFencesL (l : List Char) : List Char :=
  let t1 := trimL l
  let t2 := match leadMatch "```json".data t1 with
    | some r => r
    | none => match leadMatch "```".data t1 with
      | some r => r
      | none => t1
  let t3 := match trailMatch "```".data t2 with
    | some r => r
    | none => t2
  trimL t3

/-- `strip_code_fences` from yoku-core/src/llm/mod.rs. -/
def strip_code_fences (s : String) : String := ⟨stripFencesL s.data⟩

/-! ## Number display (for error messages only)

`deserialize_reps` embeds the offending value in its error message via
`format!`.  The display below is a straightforward decimal rendering; no
settled claim asserts the exact text of an error message. -/

/-- Decimal digits of a fraction `0 ≤ q < 1`, up to 17 places. -/
def fracDigits : ℕ → ℚ → List Char
  | 0, _ => []
  | fuel + 1, q =>
    if q = 0 then []
    else
      let d := ⌊q * 10⌋
      Char.ofNat (48 + d.toNat) :: fracDigits fuel (q * 10 - (d : ℚ))

/-- Display of a modelled `f64` (Rust `{}` formatting, decimal rendering). -/
def displayF64 : F64 → String
  | .nan => "NaN"
  | .inf => "inf"
  | .neginf => "-inf"
  | .finite q =>
    let sign := if q < 0 then "-" else ""
    let a := |q|
    let ip := ⌊a⌋
    let frac := a - (ip : ℚ)
    if frac = 0 then sign ++ toString ip
    else sign ++ toString ip ++ "." ++ (⟨fracDigits 17 frac⟩ : String)

/-! ## LLM-output deserialization (yoku-core/src/llm/mod.rs)

`serde` semantics captured here: an untagged `IntOrFloat` tries `i32` first
(an in-range integer token) and falls back to `f64`; an `Option<T>` field
may be absent or `null`; a field with `deserialize_with` (ParsedSet's
`reps`/`set_count`) is required; deserializing `i64` from a float token is
a type error; unknown object keys are ignored. -/

/-- The untagged helper enum inside `deserialize_reps`. -/
inductive IntOrFloat where
  | int (n : ℤ)
  | float (f : F64)
deriving DecidableEq, Repr

/-- Untagged deserialization of `IntOrFloat` from a JSON value. -/
def intOrFloatFromJson : Json → Except String IntOrFloat
  | .int n =>
    if -(2 ^ 31) ≤ n ∧ n < 2 ^ 31 then .ok (.int n) else .ok (.float (.finite n))
  | .float f => .ok (.float f)
  | _ => .error "data did not match any variant of untagged enum IntOrFloat"

/-- `deserialize_reps` (yoku-core/src/llm/mod.rs lines 15-39): accept an
integer as-is; accept a float only if finite and non-negative, rounding to
the nearest integer; otherwise fail. -/
def deserialize_reps (j : Json) : Except String (Option ℤ) :=
  match j with
  | .null => .ok none
  | _ => do
    match ← intOrFloatFromJson j with
    | .int i => .ok (some i)
    | .float f =>
      if f.isFinite && f.nonneg then
        match f with
        | .finite q => .ok (some (satI32 (roundHalfAway q)))
        | _ => .error ("invalid reps value: " ++ displayF64 f)
      else .error ("invalid reps value: " ++ displayF64 f)

/-- Deserialize an `f64`/`f32` from a JSON number. -/
def f64FromJson : Json → Except String F64
  | .int n => .ok (.finite (n : ℚ))
  | .float f => .ok f
  | _ => .error "invalid type: expected a float"

/-- Deserialize an `i64` from a JSON number: a float token is a type
error (this is why `Command`'s plain `Option<i64>` fields reject `5.0`). -/
def i64FromJson : Json → Except String ℤ
  | .int n => .ok n
  | _ => .error "invalid type: expected i64"

/-- A required `String` field. -/
def reqStrField (j : Json) (k : String) : Except String String :=
  match j.getField k with
  | some (.str s) => .ok s
  | some _ => .error ("invalid type for field " ++ k)
  | none => .error ("missing field " ++ k)

/-- An optional `String` field (absent or null is `None`). -/
def optStrField (j : Json) (k : String) : Except String (Option String) :=
  match j.getField k with
  | none => .ok none
  | some .null => .ok none
  | some (.str s) => .ok (some s)
  | some _ => .error ("invalid type for field " ++ k)

/-- An optional `f64`/`f32` field. -/
def optF64Field (j : Json) (k : String) : Except String (Option F64) :=
  match j.getField k with
  | none => .ok none
  | some .null => .ok none
  | some v => (some ·) <$> f64FromJson v

/-- An optional plain `i64` field. -/
def optI64Field (j : Json) (k : String) : Except String (Option ℤ) :=
  match j.getField k with
  | none => .ok none
  | some .null => .ok none
  | some v => (some ·) <$> i64FromJson v

/-- A required `Vec<String>` field. -/
def strListField (j : Json) (k : String) : Except String (List String) :=
  match j.getField k with
  | some (.arr es) =>
    es.mapM (fun e => match e with
      | .str s => Except.ok s
      | _ => Except.error ("invalid element in field " ++ k))
  | some _ => .error ("invalid type for field " ++ k)
  | none => .error ("missing field " ++ k)

/-- `ParsedSet` (yoku-core/src/llm/mod.rs lines 41-54).  `weight`/`rpe` are
`f32` in Rust; the cast to/from `f64` is value-preserving in this model. -/
structure ParsedSet where
  exercise : String
  weight : Option F64
  reps : Option ℤ
  rpe : Option F64
  set_count : Option ℤ
  tags : List String
  aoi : Option String
  original_string : String
deriving DecidableEq, Repr

/-- Derived `Deserialize` for `ParsedSet`: `reps` and `set_count` go
through `deserialize_reps` (and are therefore required fields);
`original_string` is `skip_deserializing` and defaults to `""`. -/
def parsedSetFromJson (j : Json) : Except String ParsedSet :=
  match j with
  | .obj _ => do
    let exercise ← reqStrField j "exercise"
    let weight ← optF64Field j "weight"
    let reps ← match j.getField "reps" with
      | none => Except.error "missing field reps"
      | some v => deserialize_reps v
    let rpe ← optF64Field j "rpe"
    let set_count ← match j.getField "set_count" with
      | none => Except.error "missing field set_count"
      | some v => deserialize_reps v
    let tags ← strListField j "tags"
    let aoi ← optStrField j "aoi"
    .ok { exercise, weight, reps, rpe, set_count, tags, aoi, original_string := "" }
  | _ => .error "invalid type: expected a ParsedSet object"

/-- The classified `Command` union.  Variants follow the executor in
yoku-core/src/session/commands.rs (which matches an `UpdateSummary`
variant; the enum in llm/mod.rs still carries the older
`change_intention` name — a mid-refactor inconsistency in the source; no
settled claim depends on that variant). -/
inductive Command where
  | addSet (exercise : String) (weight : Option F64) (reps : Option ℤ)
      (rpe : Option F64) (set_count : Option ℤ) (tags : List String)
      (aoi : Option String) (original_string : String)
  | removeSet (set_id : Option ℤ) (description : Option String)
  | editSet (set_id : Option ℤ) (description : Option String)
      (exercise : Option String) (weight : Option F64) (reps : Option ℤ)
      (rpe : Option F64)
  | updateSummary (message : String) (emoji : String)
  | unknown (input : String)
deriving DecidableEq, Repr

/-- Internally-tagged (`command_type`) deserialization of one `Command`.
Note that `reps`/`set_count` here are plain `Option<i64>` fields — the
`deserialize_reps` coercion applies only to `ParsedSet`. -/
def commandFromJson (j : Json) : Except String Command :=
  match j.getField "command_type" with
  | some (.str t) =>
    if t = "add_set" then do
      let exercise ← reqStrField j "exercise"
      let weight ← optF64Field j "weight"
      let reps ← optI64Field j "reps"
      let rpe ← optF64Field j "rpe"
      let set_count ← optI64Field j "set_count"
      let tags ← strListField j "tags"
      let aoi ← optStrField j "aoi"
      let original_string ← reqStrField j "original_string"
      .ok (.addSet exercise weight reps rpe set_count tags aoi original_string)
    else if t = "remove_set" then do
      let set_id ← optI64Field j "set_id"
      let description ← optStrField j "description"
      .ok (.removeSet set_id description)
    else if t = "edit_set" then do
      let set_id ← optI64Field j "set_id"
      let description ← optStrField j "description"
      let exercise ← optStrField j "exercise"
      let weight ← optF64Field j "weight"
      let reps ← optI64Field j "reps"
      let rpe ← optF64Field j "rpe"
      .ok (.editSet set_id description exercise weight reps rpe)
    else if t = "update_summary" then do
      let message ← reqStrField j "message"
      let emoji ← reqStrField j "emoji"
      .ok (.updateSummary message emoji)
    else if t = "unknown" then do
      let input ← reqStrField j "input"
      .ok (.unknown input)
    else .error ("unknown variant " ++ t)
  | _ => .error "missing field command_type"

/-- The `{"commands": [...]}` envelope. -/
structure CommandList where
  commands : List Command
deriving DecidableEq, Repr

/-- Derived `Deserialize` for `CommandList`. -/
def commandListFromJson (j : Json) : Except String CommandList :=
  match j.getField "commands" with
  | some (.arr es) => do
    let cs ← es.mapM commandFromJson
    .ok { commands := cs }
  | some _ => .error "invalid type for field commands"
  | none => .error "missing field commands"

/-! ## Data model (yoku-core/src/db/models.rs) -/

inductive WorkoutStatus where
  | inProgress
  | completed
deriving DecidableEq, Repr

structure Exercise where
  id : ℤ
  slug : String
  name : String
  description : Option String
  created_at : ℤ
  updated_at : ℤ
deriving DecidableEq, Repr

structure User where
  id : ℤ
  username : String
  created_at : ℤ
  updated_at : ℤ
deriving DecidableEq, Repr

structure RequestString where
  id : ℤ
  user_id : ℤ
  string : String
  created_at : ℤ
  updated_at : ℤ
deriving DecidableEq, Repr

structure WorkoutSession where
  id : ℤ
  user_id : Option ℤ
  name : Option String
  duration_seconds : ℤ
  notes : Option String
  status : WorkoutStatus
  summary : Option String
  created_at : ℤ
  updated_at : ℤ
deriving DecidableEq, Repr

structure WorkoutSet where
  id : ℤ
  session_id : ℤ
  exercise_id : ℤ
  request_string_id : ℤ
  weight : F64
  reps : ℤ
  set_index : ℤ
  rpe : Option F64
  notes : Option String
  created_at : ℤ
  updated_at : ℤ
deriving DecidableEq, Repr

/-- The partial-update record for `update_workout_set`
(yoku-core/src/db/models.rs lines 314-323). -/
structure UpdateWorkoutSet where
  session_id : Option ℤ := none
  exercise_id : Option ℤ := none
  request_string_id : Option ℤ := none
  weight : Option F64 := none
  reps : Option ℤ := none
  rpe : Option F64 := none
  set_index : Option ℤ := none
  notes : Option String := none
deriving DecidableEq, Repr

/-! ## The SQLite store

Tables are lists in rowid (insertion) order, with per-table autoincrement
counters.  `chrono::Utc::now().timestamp()` is modelled by the clock field
`now` (its advancement is irrelevant to every settled claim: concrete
creation times in counterexamples are set directly on the rows). -/

structure Db where
  sessions : List WorkoutSession
  exercises : List Exercise
  users : List User
  request_strings : List RequestString
  sets : List WorkoutSet
  next_exercise_id : ℤ
  next_user_id : ℤ
  next_request_string_id : ℤ
  next_set_id : ℤ
  now : ℤ
deriving DecidableEq, Repr

/-! ## Storage operations (yoku-core/src/db/operations.rs) -/

/-- One character of `slugify`'s mapping step (input is already
lowercased, so `a..z | 0..9` keep, everything else becomes `-`). -/
def slugChar (c : Char) : Char :=
  if ('a' ≤ c && c ≤ 'z') || ('0' ≤ c && c ≤ '9') then c else '-'

/-- Collapse runs of `-` to a single `-` (the `prev_dash` loop). -/
def collapseDashes : Bool → List Char → List Char
  | _, [] => []
  | prevDash, c :: cs =>
    if c = '-' then
      if prevDash then collapseDashes true cs
      else '-' :: collapseDashes true cs
    else c :: collapseDashes false cs

/-- `slugify` (yoku-core/src/db/operations.rs lines 12-38). -/
def slugify (name : String) : String :=
  let s := lowerL (trimL name.data)
  let mapped := s.map slugChar
  let collapsed := collapseDashes false mapped
  ⟨(((collapsed.dropWhile (· = '-')).reverse.dropWhile (· = '-')).reverse)⟩

/-- `get_workout_session`: `fetch_one` by id, error when absent. -/
def getWorkoutSession (db : Db) (session_id : ℤ) : Except String WorkoutSession :=
  match db.sessions.find? (fun w => w.id = session_id) with
  | some w => .ok w
  | none => .error "no rows returned by a query that expected to return at least one row"

/-- `get_all_exercises`: plain table scan in rowid order. -/
def getAllExercises (db : Db) : List Exercise := db.exercises

/-- `get_or_create_exercise`: exact (case-sensitive) name lookup, else
insert with a derived slug. -/
def getOrCreateExercise (db : Db) (exercise_name : String) : Db × Exercise :=
  match db.exercises.find? (fun e => e.name = exercise_name) with
  | some e => (db, e)
  | none =>
    let e : Exercise :=
      { id := db.next_exercise_id, slug := slugify exercise_name,
        name := exercise_name, description := none,
        created_at := db.now, updated_at := db.now }
    ({ db with exercises := db.exercises ++ [e],
               next_exercise_id := db.next_exercise_id + 1 }, e)

/-- `get_or_create_user`. -/
def getOrCreateUser (db : Db) (username : String) : Db × User :=
  match db.users.find? (fun u => u.username = username) with
  | some u => (db, u)
  | none =>
    let u : User :=
      { id := db.next_user_id, username := username,
        created_at := db.now, updated_at := db.now }
    ({ db with users := db.users ++ [u],
               next_user_id := db.next_user_id + 1 }, u)

/-- `create_request_string`. -/
def createRequestString (db : Db) (user_id : ℤ) (input : String) :
    Db × RequestString :=
  let r : RequestString :=
    { id := db.next_request_string_id, user_id := user_id, string := input,
      created_at := db.now, updated_at := db.now }
  ({ db with request_strings := db.request_strings ++ [r],
             next_request_string_id := db.next_request_string_id + 1 }, r)

/-- `create_request_string_for_username`. -/
def createRequestStringForUsername (db : Db) (username : String)
    (input : String) : Db × RequestString :=
  let (db1, u) := getOrCreateUser db username
  createRequestString db1 u.id input

/-- `SELECT MAX(set_index) ... WHERE session_id = ? AND exercise_id = ?`,
`None` when the pair has no rows (the intended `fetch_optional` reading). -/
def maxSetIndex (db : Db) (session_id exercise_id : ℤ) : Option ℤ :=
  ((db.sets.filter (fun s =>
      s.session_id = session_id ∧ s.exercise_id = exercise_id)).map
    (fun s => s.set_index)).max?

/-- `add_workout_set` (yoku-core/src/db/operations.rs lines 324-378):
index assigned as `max(existing) + 1`, defaulting to 1. -/
def addWorkoutSet (db : Db) (session_id exercise_id request_string_id : ℤ)
    (weight : F64) (reps : ℤ) (rpe : Option F64) : Db × WorkoutSet :=
  let next_index := match maxSetIndex db session_id exercise_id with
    | some n => n + 1
    | none => 1
  let row : WorkoutSet :=
    { id := db.next_set_id, session_id, exercise_id, request_string_id,
      weight, reps, set_index := next_index, rpe, notes := none,
      created_at := db.now, updated_at := db.now }
  ({ db with sets := db.sets ++ [row], next_set_id := db.next_set_id + 1 }, row)

/-- The insertion loop of `add_multiple_sets_to_workout`: `k` remaining
rows, the next one at `start_index + i`. -/
def addMultipleLoop (session_id exercise_id request_string_id : ℤ)
    (weight : F64) (reps : ℤ) (rpe : Option F64) (start_index : ℤ) :
    Db → ℤ → ℕ → Db × List WorkoutSet
  | db, _, 0 => (db, [])
  | db, i, k + 1 =>
    let row : WorkoutSet :=
      { id := db.next_set_id, session_id, exercise_id, request_string_id,
        weight, reps, set_index := start_index + i, rpe, notes := none,
        created_at := db.now, updated_at := db.now }
    let db1 := { db with sets := db.sets ++ [row],
                         next_set_id := db.next_set_id + 1 }
    let (db2, rest) := addMultipleLoop session_id exercise_id
      request_string_id weight reps rpe start_index db1 (i + 1) k
    (db2, row :: rest)

/-- `add_multiple_sets_to_workout` (yoku-core/src/db/operations.rs lines
380-443): the starting index is read once, then `set_count` rows are
inserted at consecutive indices (`for i in 0..set_count`). -/
def addMultipleSetsToWorkout (db : Db)
    (session_id exercise_id request_string_id : ℤ) (weight : F64)
    (reps : ℤ) (rpe : Option F64) (set_count : ℤ) : Db × List WorkoutSet :=
  let starting_index := match maxSetIndex db session_id exercise_id with
    | some n => n + 1
    | none => 1
  addMultipleLoop session_id exercise_id request_string_id weight reps rpe
    starting_index db 0 set_count.toNat

/-- `get_sets_for_session`: the session's sets ordered by `set_index`
ascending (stable linearization of the SQL sort). -/
def getSetsForSession (db : Db) (session_id : ℤ) : List WorkoutSet :=
  sortByStable (fun a b => a.set_index ≤ b.set_index)
    (db.sets.filter (fun s => s.session_id = session_id))

/-- The row produced by `update_workout_set`'s UPDATE statement
(yoku-core/src/db/operations.rs lines 466-504): every field is guarded by
`CASE WHEN ?n IS NOT NULL THEN ?n ELSE old END` — except `notes`, which is
assigned unconditionally (`notes = ?8`). -/
def applyUpdateRow (row : WorkoutSet) (u : UpdateWorkoutSet) (now : ℤ) :
    WorkoutSet :=
  { id := row.id
    session_id := u.session_id.getD row.session_id
    exercise_id := u.exercise_id.getD row.exercise_id
    request_string_id := u.request_string_id.getD row.request_string_id
    weight := u.weight.getD row.weight
    reps := u.reps.getD row.reps
    set_index := u.set_index.getD row.set_index
    rpe := match u.rpe with
      | some r => some r
      | none => row.rpe
    notes := u.notes
    created_at := row.created_at
    updated_at := now }

/-- `update_workout_set`: apply the partial update to the row with the
given id (`fetch_one` error when absent) and return the updated row. -/
def updateWorkoutSet (db : Db) (set_id : ℤ) (u : UpdateWorkoutSet) :
    Except String (Db × WorkoutSet) :=
  match db.sets.find? (fun s => s.id = set_id) with
  | none => .error "no rows returned by a query that expected to return at least one row"
  | some row =>
    let row1 := applyUpdateRow row u db.now
    .ok ({ db with sets := db.sets.map (fun s => if s.id = set_id then row1 else s) },
         row1)

/-- `delete_workout_set`: delete by id, returning `rows_affected` (zero
when the id does not exist — no error). -/
def deleteWorkoutSet (db : Db) (set_id : ℤ) : Db × ℕ :=
  let affected := (db.sets.filter (fun s => s.id = set_id)).length
  ({ db with sets := db.sets.filter (fun s => ¬s.id = set_id) }, affected)

/-- `get_exercise_entries` (yoku-core/src/db/operations.rs lines 577-614):
all sets of the exercise across every session, `ORDER BY created_at ASC`,
optionally `LIMIT`ed — so a limit keeps the *earliest* rows. -/
def getExerciseEntries (db : Db) (exercise_id : ℤ) (limit : Option ℕ) :
    List WorkoutSet :=
  let rows := sortByStable (fun a b => a.created_at ≤ b.created_at)
    (db.sets.filter (fun s => s.exercise_id = exercise_id))
  match limit with
  | some n => rows.take n
  | none => rows

/-- Modelled from the spec: `update_workout_summary(session_id, json_text)`
persists the JSON blob as the workout's cached summary.  The function is
referenced by session/commands.rs but its definition is absent from the
src snapshot (mid-refactor); no settled claim depends on it. -/
def updateWorkoutSummary (db : Db) (session_id : ℤ) (json_text : String) : Db :=
  { db with sessions := db.sessions.map (fun w =>
      if w.id = session_id then { w with summary := some json_text, updated_at := db.now }
      else w) }

/-! ## Session state and the reference resolver
(yoku-core/src/session/session.rs, context.rs) -/

/-- The in-memory `Session`: the active workout pointer plus the store.
The LLM backend is passed separately as a responder function (the `Mock`
backend of `LlmInterface`). -/
structure St where
  workout_id : Option ℤ
  db : Db
deriving DecidableEq, Repr

/-- `HashMap::get` on the exercise-id → name map, linearized as an
association list in insertion order. -/
def lookupName (emap : List (ℤ × String)) (eid : ℤ) : Option String :=
  (emap.find? (fun kv => kv.1 = eid)).map (fun kv => kv.2)

/-- Sets sorted most-recent-first (`sort_by_key(Reverse(created_at))`,
stable). -/
def sortMostRecentFirst (sets : List WorkoutSet) : List WorkoutSet :=
  sortByStable (fun a b => decide (b.created_at ≤ a.created_at)) sets

/-- The first whitespace token of the description that parses as a
`usize` (the "bare integer token" of the resolver). -/
def firstIntToken (descLower : List Char) : Option ℕ :=
  match (splitWs descLower).find? (fun tok => (parseUsizeL tok).isSome) with
  | some tok => parseUsizeL tok
  | none => none

/-- The exercise-name loop of `resolve_set_id_from_description`
(yoku-core/src/session/context.rs lines 139-167).  The outer `Option` is
the Rust `return`: `some r` means the loop returned `r` from the whole
function, `none` means every iteration fell through. -/
def exerciseScan (descLower : List Char) (sortedSets : List WorkoutSet)
    (emap : List (ℤ × String)) : List String → Option (Option ℤ)
  | [] => none
  | name :: rest =>
    let exLower := lowerL name.data
    if occursIn exLower descLower then
      let exerciseSets := sortedSets.filter
        (fun s => lookupName emap s.exercise_id = some name)
      if occursIn "last".data descLower ||
          occursIn "most recent".data descLower then
        some ((exerciseSets.head?).map (fun s => s.id))
      else
        match firstIntToken descLower with
        | some idx =>
          if 0 < idx ∧ idx ≤ exerciseSets.length then
            some ((exerciseSets[idx - 1]?).map (fun s => s.id))
          else exerciseScan descLower sortedSets emap rest
        | none => exerciseScan descLower sortedSets emap rest
    else exerciseScan descLower sortedSets emap rest

/-- `resolve_set_id_from_description`
(yoku-core/src/session/context.rs lines 119-181). -/
def resolveSetIdFromDescription (description : String)
    (sets : List WorkoutSet) (emap : List (ℤ × String)) : Option ℤ :=
  let descLower := lowerL description.data
  let sortedSets := sortMostRecentFirst sets
  if occursIn "most recent".data descLower ||
      occursIn "last".data descLower || descLower = "that".data then
    (sortedSets.head?).map (fun s => s.id)
  else if occursIn "second to last".data descLower ||
      occursIn "second last".data descLower then
    (sortedSets[1]?).map (fun s => s.id)
  else
    match exerciseScan descLower sortedSets emap (emap.map (fun kv => kv.2)) with
    | some r => r
    | none =>
      match firstIntToken descLower with
      | some idx =>
        if 0 < idx ∧ idx ≤ sortedSets.length then
          (sortedSets[idx - 1]?).map (fun s => s.id)
        else none
      | none => none

/-! ## Context-string rendering (yoku-core/src/session/context.rs lines 8-117)

Numeric formatting (`{:.1}`) is rendered by decimal rounding to one place;
Rust's tie-breaking at exactly half a tenth is not exercised by any settled
claim. -/

/-- Rust `format!("{:.1}", f)` for a modelled `f64`. -/
def fmtF1 (f : F64) : String :=
  match f with
  | .nan => "NaN"
  | .inf => "inf"
  | .neginf => "-inf"
  | .finite q =>
    let n := roundHalfAway (q * 10)
    let sign := if n < 0 then "-" else ""
    let m := n.natAbs
    sign ++ toString (m / 10) ++ "." ++ toString (m % 10)

/-- The ` @x.yRPE` tag appended to set lines. -/
def fmtRpeTag (rpe : Option F64) : String :=
  match rpe with
  | some r => " @" ++ fmtF1 r ++ "RPE"
  | none => ""

/-- Rust `format!("{:?}", opt)` for an `Option<String>` (no escaping is
needed by the modelled inputs). -/
def debugOptStr : Option String → String
  | none => "None"
  | some s => "Some(\"" ++ s ++ "\")"

/-- Rust `format!("{:?}", opt)` for an `Option<f32>`. -/
def debugOptF64 : Option F64 → String
  | none => "None"
  | some (.finite q) =>
    if q - (⌊q⌋ : ℚ) = 0 then "Some(" ++ toString ⌊q⌋ ++ ".0)"
    else "Some(" ++ displayF64 (.finite q) ++ ")"
  | some f => "Some(" ++ displayF64 f ++ ")"

/-- First-occurrence linearization of the `HashSet<i64>` of exercise ids
touched by the workout. -/
def dedupAux (seen : List ℤ) : List ℤ → List ℤ
  | [] => []
  | x :: xs =>
    if x ∈ seen then dedupAux seen xs else x :: dedupAux (x :: seen) xs

/-- The sets listed by the per-exercise history section: the result of
`get_exercise_entries(pool, exercise_id, Some(10))`, further capped by
`.take(10)` at render time.  Because `get_exercise_entries` orders by
`created_at` *ascending*, these are the exercise's ten earliest sets. -/
def historyTake (db : Db) (exercise_id : ℤ) : List WorkoutSet :=
  (getExerciseEntries db exercise_id (some 10)).take 10

/-- One line of the RECENT SETS section. -/
def recentSetLine (emap : List (ℤ × String)) (idx : ℕ) (set : WorkoutSet) :
    String :=
  "  [" ++ toString (idx + 1) ++ "] Set ID=" ++ toString set.id ++
    ", Exercise=" ++ (lookupName emap set.exercise_id).getD "Unknown" ++
    ", Weight=" ++ fmtF1 set.weight ++ "kg, Reps=" ++ toString set.reps ++
    ", Set Index=" ++ toString set.set_index ++ fmtRpeTag set.rpe ++ "\n"

/-- One line of the ALL SETS section. -/
def allSetLine (emap : List (ℤ × String)) (set : WorkoutSet) : String :=
  "  Set ID=" ++ toString set.id ++
    ", Exercise=" ++ (lookupName emap set.exercise_id).getD "Unknown" ++
    ", Weight=" ++ fmtF1 set.weight ++ "kg, Reps=" ++ toString set.reps ++
    ", Set Index=" ++ toString set.set_index ++ fmtRpeTag set.rpe ++
    ", Created=" ++ toString set.created_at ++ "\n"

/-- The per-exercise block of the history section (empty when the id is
unknown to the map or the exercise has no entries). -/
def historyBlock (db : Db) (emap : List (ℤ × String)) (exercise_id : ℤ) :
    String :=
  match lookupName emap exercise_id with
  | none => ""
  | some exercise_name =>
    let past := historyTake db exercise_id
    if past.isEmpty then ""
    else
      "  " ++ exercise_name ++ ":\n" ++
        String.join (past.map (fun p =>
          "    " ++ fmtF1 p.weight ++ "kg x " ++ toString p.reps ++
            " reps" ++ fmtRpeTag p.rpe ++ "\n"))

/-- `build_workout_context_string`
(yoku-core/src/session/context.rs lines 8-117). -/
def buildWorkoutContextString (st : St) : Except String String :=
  match st.workout_id with
  | none => .ok "No active workout session."
  | some workout_id =>
    (getWorkoutSession st.db workout_id).map (fun workout =>
      let sets := getSetsForSession st.db workout_id
      let exercises := getAllExercises st.db
      let emap := exercises.map (fun e => (e.id, e.name))
      let sorted_sets := sortMostRecentFirst sets
      let header := "Current Workout: ID=" ++ toString workout.id ++
        ", Name=" ++ debugOptStr workout.name ++ "\n"
      let summaryPart := match workout.summary with
        | some summary_json =>
          match parseJsonText summary_json with
          | .ok v =>
            "Cached Summary → message: \"" ++
              (((v.getField "message").bind Json.asStr).getD "") ++
              "\" | emoji: " ++
              (((v.getField "emoji").bind Json.asStr).getD "") ++ "\n"
          | .error _ => "Cached Summary → (invalid JSON)\n"
        | none => "Cached Summary → (none)\n"
      let recent := String.join (((sorted_sets.take 10).enum).map
        (fun p => recentSetLine emap p.1 p.2))
      let alls := String.join (sets.map (allSetLine emap))
      let history := String.join
        ((dedupAux [] (sets.map (fun s => s.exercise_id))).map
          (historyBlock st.db emap))
      header ++ summaryPart ++ "\n" ++
        "=== RECENT SETS (Most Recent First) ===\n" ++ recent ++ "\n" ++
        "=== ALL SETS IN CURRENT WORKOUT ===\n" ++ alls ++ "\n" ++
        "=== RECENT PERFORMANCE HISTORY (Past 10 sets per exercise) ===\n" ++
        history)

/-! ## Modifications (yoku-core/src/uniffi_interface/modifications.rs) -/

inductive ModificationType where
  | setAdded
  | setModified
  | setRemoved
  | exerciseAdded
deriving DecidableEq, Repr

/-- The denormalized exercise copy shipped to the UI
(uniffi_interface/objects.rs). -/
structure UExercise where
  id : ℤ
  name : String
deriving DecidableEq, Repr

/-- The denormalized set copy shipped to the UI. -/
structure USet where
  id : ℤ
  exercise_id : ℤ
  weight : F64
  reps : ℤ
  rpe : Option F64
  notes : Option String
deriving DecidableEq, Repr

def UExercise.fromExercise (e : Exercise) : UExercise :=
  { id := e.id, name := e.name }

def USet.fromRow (s : WorkoutSet) : USet :=
  { id := s.id, exercise_id := s.exercise_id, weight := s.weight,
    reps := s.reps, rpe := s.rpe, notes := s.notes }

structure Modification where
  modification_type : ModificationType
  set_id : Option ℤ
  set_ids : List ℤ
  exercise_id : Option ℤ
  set : Option USet
  sets : Option (List USet)
  exercise : Option UExercise
deriving DecidableEq, Repr

/-! ## Session set operations (yoku-core/src/session/sets.rs) -/

/-- `get_all_sets`. -/
def getAllSets (st : St) : Except String (List WorkoutSet) :=
  match st.workout_id with
  | some workout_id => .ok (getSetsForSession st.db workout_id)
  | none => .error "No active workout"

/-- `is_exercise_new_for_session`: zero prior sets for the
(session, exercise) pair; `false` when no workout is active. -/
def isExerciseNewForSession (st : St) (exercise_id : ℤ) : Bool :=
  match st.workout_id with
  | some workout_id =>
    (st.db.sets.filter (fun s =>
      s.session_id = workout_id ∧ s.exercise_id = exercise_id)).length = 0
  | none => false

/-- The request-string content: the original input, or a synthesized
`"{exercise} {reps} reps rpe:{rpe:?}"` description when it is empty. -/
def requestStrContent (parsed : ParsedSet) : String :=
  if parsed.original_string.isEmpty then
    parsed.exercise ++ " " ++ toString (parsed.reps.getD 0) ++
      " reps rpe:" ++ debugOptF64 parsed.rpe
  else parsed.original_string

/-- `add_set_from_parsed_with_modifications`
(yoku-core/src/session/sets.rs lines 125-227). -/
def addSetFromParsedWithModifications (st : St) (parsed : ParsedSet) :
    St × Except String (List Modification) :=
  match st.workout_id with
  | none => (st, .error "No active workout in session")
  | some session_id =>
    let request_str_content := requestStrContent parsed
    let (db1, exercise) := getOrCreateExercise st.db parsed.exercise
    let is_new_exercise := isExerciseNewForSession { st with db := db1 } exercise.id
    let uniffi_exercise := UExercise.fromExercise exercise
    let weight := parsed.weight.getD (.finite 0)
    let reps := parsed.reps.getD 0
    let set_count := max (parsed.set_count.getD 1) 1
    let parsed_rpe := parsed.rpe
    let (db2, request) :=
      createRequestStringForUsername db1 "cli" request_str_content
    let mtype := if is_new_exercise then ModificationType.exerciseAdded
      else ModificationType.setAdded
    if 1 < set_count then
      let (db3, created_sets) := addMultipleSetsToWorkout db2 session_id
        exercise.id request.id weight reps parsed_rpe set_count
      let set_ids := created_sets.map (fun s => s.id)
      let uniffi_sets := created_sets.map USet.fromRow
      ({ st with db := db3 },
        .ok [{ modification_type := mtype,
               set_id := set_ids.head?,
               set_ids := set_ids,
               exercise_id := some exercise.id,
               set := uniffi_sets.head?,
               sets := some uniffi_sets,
               exercise := some uniffi_exercise }])
    else
      let (db3, created_set) := addWorkoutSet db2 session_id exercise.id
        request.id weight reps parsed_rpe
      let uniffi_set := USet.fromRow created_set
      ({ st with db := db3 },
        .ok [{ modification_type := mtype,
               set_id := some created_set.id,
               set_ids := [created_set.id],
               exercise_id := some exercise.id,
               set := some uniffi_set,
               sets := some [uniffi_set],
               exercise := some uniffi_exercise }])

/-- `update_workout_set_with_modifications`
(yoku-core/src/session/sets.rs lines 229-256). -/
def updateWorkoutSetWithModifications (st : St) (set_id : ℤ)
    (u : UpdateWorkoutSet) : St × Except String (WorkoutSet × List Modification) :=
  match updateWorkoutSet st.db set_id u with
  | .error e => (st, .error e)
  | .ok (db1, updated) =>
    let uniffi_set := USet.fromRow updated
    let exercise_opt := db1.exercises.find? (fun e => e.id = updated.exercise_id)
    let uniffi_exercise := exercise_opt.map UExercise.fromExercise
    ({ st with db := db1 },
      .ok (updated,
        [{ modification_type := .setModified,
           set_id := some set_id,
           set_ids := [set_id],
           exercise_id := some updated.exercise_id,
           set := some uniffi_set,
           sets := some [uniffi_set],
           exercise := uniffi_exercise }]))

/-- `delete_set_with_modifications`
(yoku-core/src/session/sets.rs lines 258-274): the pre-delete snapshot
supplies the exercise id (None when the set does not exist), the delete
itself performs no existence check, and the function succeeds either way.
The Rust code `unwrap()`s the active workout id; the panic on `None` is
modelled as an error (unreachable from `process_user_input`). -/
def deleteSetWithModifications (st : St) (set_id : ℤ) :
    St × Except String (List Modification) :=
  match st.workout_id with
  | none => (st, .error "panic: called unwrap on None")
  | some workout_id =>
    let sets := getSetsForSession st.db workout_id
    let exercise_id := (sets.find? (fun s => s.id = set_id)).map
      (fun s => s.exercise_id)
    let (db1, _) := deleteWorkoutSet st.db set_id
    ({ st with db := db1 },
      .ok [{ modification_type := .setRemoved,
             set_id := some set_id,
             set_ids := [set_id],
             exercise_id := exercise_id,
             set := none,
             sets := none,
             exercise := none }])

/-! ## Prompt builder (yoku-core/src/llm/mod.rs lines 355-616)

Only the classification prompts feed `process_user_input`; the example
lists are carried for structural fidelity (they are empty in that path). -/

structure ParseExample where
  input : String
  output_json : String
deriving DecidableEq, Repr

structure PromptContext where
  known_exercises : List String := []
  known_equipment : List String := []
  known_muscles : List String := []
  parse_examples : List ParseExample := []
  max_examples : ℕ := 3
  max_example_chars : ℕ := 1500
  selected_set_backend_id : Option ℤ := none
  visible_set_backend_ids : List ℤ := []
deriving DecidableEq, Repr

/-- `system_input_classification_prompt`: the fixed instruction block
(verbatim from yoku-core/src/llm/mod.rs lines 542-579). -/
def systemInputClassificationPrompt : String :=
  "You are a command classifier for a workout tracking app. Analyze the user input and return" ++
    " a JSON array of commands to execute.\n\nReturn a JSON object with a \"commands\" array. E" ++
    "ach command should be fully parsed with all fields extracted.\n\nCommand types:\n1. \"add_" ++
    "set\" - Add one or more workout sets. Fields: exercise (string), weight (number|null), rep" ++
    "s (integer|null), rpe (number|null), set_count (integer|null, defaults to 1), tags (array " ++
    "of strings), aoi (string|null), original_string (string)\n   - If user says \"add 3 sets o" ++
    "f bench press 100kg x 5\", return 3 separate add_set commands\n   - Parse exercise names, " ++
    "weights, reps, RPE from natural language\n   - RPE is rate of perceived exersion 0 is No e" ++
    "ffort, 1 Very light, 2 to 3 Light, 4 to 6 Moderate, 7 to 8 Vigorous, 9 Very Hard, and 10 i" ++
    "s Maximum Effort. The scale can also be interpreted as the number of reps in reserve, wher" ++
    "e one rep in reserve is 9 (10 minus 1), etc. The user may say \"one rep max\" indicating 0" ++
    " reps in reserve and an RPE 10 for example.\n   - Use known exercises from context when po" ++
    "ssible\n\n2. \"remove_set\" - Remove one or more sets. Fields: set_id (integer|null), desc" ++
    "ription (string|null)\n   - If set_id is provided, use it directly\n   - If description is" ++
    " provided (e.g., \"last bench press set\"), the backend will resolve it\n   - If user says" ++
    " \"remove the last 2 sets\", return 2 remove_set commands\n   - If user says \"this set\" " ++
    "and a currently selected set ID is provided in context, use that set_id\n   - If user says" ++
    " \"all the sets I can see\" or similar and visible set IDs are provided, use those set_ids" ++
    " (one command per set)\n\n3. \"edit_set\" - Edit an existing set. Fields: set_id (integer|" ++
    "null), description (string|null), exercise (string|null), weight (number|null), reps (inte" ++
    "ger|null), rpe (number|null)\n   - Only include fields that should be changed\n   - If use" ++
    "r says \"change last bench press to 105kg\", include set_id or description pointing to the" ++
    " last bench press set, and weight=105.0\n   - If user says \"no that should be 80kg\" refe" ++
    "rring to most recent set, use description or set_id from recent sets\n   - If user says \"" ++
    "this set\" and a currently selected set ID is provided in context, use that set_id\n\n4. " ++
    "\"change_intention\" - Change workout intention/goal. Fields: intention (string)\n   - Ext" ++
    "ract the intention from natural language\n\n5. \"unknown\" - Fallback for unclassifiable i" ++
    "nput. Fields: input (string)\n\nExamples:\n- \"add 3 sets of bench press 100kg x 5\" → [" ++
    "\x7b\"command_type\": \"add_set\", \"exercise\": \"Bench Press\", \"weight\": 100.0, \"rep" ++
    "s\": 5, \"set_count\": 1, \"tags\": [], \"aoi\": null, \"original_string\": \"bench press " ++
    "100kg x 5\"\x7d, ... (3 times)]\n- \"remove the last 2 sets\" → [\x7b\"command_type\": \"r" ++
    "emove_set\", \"set_id\": null, \"description\": \"last set\"\x7d, \x7b\"command_type\": \"" ++
    "remove_set\", \"set_id\": null, \"description\": \"second to last set\"\x7d]\n- \"change l" ++
    "ast bench press to 105kg\" → [\x7b\"command_type\": \"edit_set\", \"set_id\": null, \"desc" ++
    "ription\": \"last bench press set\", \"weight\": 105.0, \"exercise\": null, \"reps\": null" ++
    ", \"rpe\": null\x7d]\n- \"no that should be 80kg\" → [\x7b\"command_type\": \"edit_set\", " ++
    "\"set_id\": null, \"description\": \"most recent set\", \"weight\": 80.0, ...\x7d]\n\nRetu" ++
    "rn only valid JSON: \x7b\"commands\": [...]\x7d"

/-- `user_input_classification_prompt`
(yoku-core/src/llm/mod.rs lines 581-614). -/
def userInputClassificationPrompt (ctx : PromptContext) (input : String)
    (workout_context : String) : String :=
  let parts0 := ["User input: \"" ++ input ++ "\""]
  let parts1 := match ctx.selected_set_backend_id with
    | some selected_id => parts0 ++
      ["Currently selected set ID: " ++ toString selected_id ++
        " (when user says \x27this set\x27, they mean set ID " ++
        toString selected_id ++ ")"]
    | none => parts0
  let parts2 := if ctx.visible_set_backend_ids.isEmpty then parts1
    else
      let visible_ids_str :=
        String.intercalate ", " (ctx.visible_set_backend_ids.map toString)
      parts1 ++ ["Visible set IDs: [" ++ visible_ids_str ++
        "] (when user says \x27all the sets I can see\x27 or similar, they mean these set IDs)"]
  let parts3 := parts2 ++ ["Workout Context:\n" ++ workout_context]
  let parts4 := parts3 ++
    ["Analyze the input and return a JSON array of commands to execute. All fields should be fully parsed."]
  String.intercalate "\n\n" parts4

/-! ## LLM gateway (Mock backend) and command classification -/

/-- `LlmInterface::call` with the `Mock` backend: the responder's output,
trimmed. -/
def mockCall (responder : String → String → String) (system user : String) :
    String :=
  rustTrim (responder system user)

/-- `call_json::<CommandList>`: call, strip code fences, deserialize;
a failure embeds the stripped text (yoku-core/src/llm/mod.rs lines
267-284). -/
def callJsonCommandList (responder : String → String → String)
    (system user : String) : Except String CommandList :=
  let raw := mockCall responder system user
  let stripped := strip_code_fences raw
  match parseJsonText stripped with
  | .error e =>
    .error ("Cannot parse LLM JSON output: " ++ stripped ++ "\nError: " ++ e)
  | .ok v =>
    match commandListFromJson v with
    | .error e =>
      .error ("Cannot parse LLM JSON output: " ++ stripped ++ "\nError: " ++ e)
    | .ok cl => .ok cl

/-- `classify_commands` (yoku-core/src/llm/mod.rs lines 827-846). -/
def classifyCommands (responder : String → String → String)
    (ctx : PromptContext) (input workout_context : String) :
    Except String (List Command) :=
  (callJsonCommandList responder systemInputClassificationPrompt
    (userInputClassificationPrompt ctx input workout_context)).map
    (fun cl => cl.commands)

/-! ## The command executor (yoku-core/src/session/commands.rs) -/

/-- Minimal `serde_json` string escaping (sufficient for the modelled
summary texts). -/
def escapeJsonStr (s : String) : String :=
  ⟨s.data.flatMap (fun c =>
    if c = '"' then ['\\', '"']
    else if c = '\\' then ['\\', '\\']
    else if c = '\n' then ['\\', 'n']
    else if c = '\t' then ['\\', 't']
    else if c = '\r' then ['\\', 'r']
    else [c])⟩

/-- `serde_json::json!({"message": m, "emoji": e}).to_string()` — the
`Value` object map is key-sorted, so `emoji` is serialized first. -/
def summaryJsonString (message emoji : String) : String :=
  "\x7b\"emoji\":\"" ++ escapeJsonStr emoji ++ "\",\"message\":\"" ++
    escapeJsonStr message ++ "\"\x7d"

/-- `execute_command` (yoku-core/src/session/commands.rs lines 67-194).
`sets` and `exercise_map` are the snapshots captured once in
`process_user_input` before the fan-out.  The `reps as i32` /
`set_count as i32` casts of the AddSet arm are the wrapping Rust `as`. -/
def executeCommand (st : St) (sets : List WorkoutSet)
    (exercise_map : List (ℤ × String)) :
    Command → St × Except String (List Modification)
  | .addSet exercise weight reps rpe set_count _tags _aoi original_string =>
    let parsed : ParsedSet :=
      { exercise := exercise,
        weight := weight,
        reps := reps.map wrapI32,
        rpe := rpe,
        set_count := set_count.map wrapI32,
        tags := [],
        aoi := none,
        original_string := original_string }
    addSetFromParsedWithModifications st parsed
  | .removeSet set_id description =>
    let resolved_id := match set_id with
      | some id => some id
      | none => match description with
        | some desc => resolveSetIdFromDescription desc sets exercise_map
        | none => none
    match resolved_id with
    | some id => deleteSetWithModifications st id
    | none => (st, .error "Could not resolve set_id for remove_set command")
  | .editSet set_id description exercise weight reps rpe =>
    let resolved_id := match set_id with
      | some id => some id
      | none => match description with
        | some desc => resolveSetIdFromDescription desc sets exercise_map
        | none => none
    match resolved_id with
    | some id =>
      let (st1, exercise_id) := match exercise with
        | some exercise_name =>
          let (db1, ex) := getOrCreateExercise st.db exercise_name
          ({ st with db := db1 }, some ex.id)
        | none => (st, none)
      let update : UpdateWorkoutSet :=
        { session_id := none,
          exercise_id := exercise_id,
          request_string_id := none,
          weight := weight,
          reps := reps,
          rpe := rpe,
          set_index := none,
          notes := none }
      match updateWorkoutSetWithModifications st1 id update with
      | (st2, .error e) => (st2, .error e)
      | (st2, .ok (_, modifications)) => (st2, .ok modifications)
    | none => (st, .error "Could not resolve set_id for edit_set command")
  | .updateSummary message emoji =>
    match st.workout_id with
    | none => (st, .error "No active workout in session")
    | some session_id =>
      let summary_json := summaryJsonString (rustTrim message) (rustTrim emoji)
      ({ st with db := updateWorkoutSummary st.db session_id summary_json },
        .ok [])
  | .unknown input =>
    let parsed : ParsedSet :=
      { exercise := input,
        weight := none,
        reps := none,
        rpe := none,
        set_count := some 1,
        tags := [],
        aoi := none,
        original_string := input }
    addSetFromParsedWithModifications st parsed

/-- The fan-out/fan-in over one classification batch.  The Rust code
spawns every command's future and joins them with
`futures::future::try_join_all`, which resolves to the *first* error and
drops everything else; already-completed side effects are kept, and no
`Modification` accompanies an error.  This model is the deterministic
linearization in which commands run to completion in list order until the
first failure; the shape of the returned value (a bare first error, or
all modification lists) is the same under every interleaving. -/
def executeBatch (st : St) (sets : List WorkoutSet)
    (exercise_map : List (ℤ × String)) :
    List Command → St × Except String (List (List Modification))
  | [] => (st, .ok [])
  | c :: cs =>
    match executeCommand st sets exercise_map c with
    | (st1, .error e) => (st1, .error e)
    | (st1, .ok mods) =>
      match executeBatch st1 sets exercise_map cs with
      | (st2, .error e) => (st2, .error e)
      | (st2, .ok rest) => (st2, .ok (mods :: rest))

/-- The context-build + classification stage of `process_user_input`
(yoku-core/src/session/commands.rs lines 34-46). -/
def classifyStage (st : St) (responder : String → String → String)
    (input : String) (selected_set_backend_id : Option ℤ)
    (visible_set_backend_ids : List ℤ) : Except String (List Command) :=
  (buildWorkoutContextString st).bind (fun workout_context =>
    classifyCommands responder
      { known_exercises := (getAllExercises st.db).map (fun e => e.name),
        selected_set_backend_id := selected_set_backend_id,
        visible_set_backend_ids := visible_set_backend_ids }
      input workout_context)

/-- `process_user_input` (yoku-core/src/session/commands.rs lines 12-65).
The current summary is read (commands.rs lines 24-27) but the prompt
builder of the snapshot has no field for it — the read value is dropped,
mirroring the source's unused fetch. -/
def processUserInput (st : St) (responder : String → String → String)
    (input : String) (selected_set_backend_id : Option ℤ)
    (visible_set_backend_ids : List ℤ) :
    St × Except String (List Modification) :=
  match st.workout_id with
  | none => (st, .error "No active workout session")
  | some workout_id =>
    let _current_summary :=
      ((getWorkoutSession st.db workout_id).toOption).bind (fun w => w.summary)
    let exercises := getAllExercises st.db
    let exercise_map := exercises.map (fun e => (e.id, e.name))
    match classifyStage st responder input selected_set_backend_id
        visible_set_backend_ids with
    | .error e => (st, .error e)
    | .ok commands =>
      if commands.isEmpty then (st, .ok [])
      else
        match getAllSets st with
        | .error e => (st, .error e)
        | .ok sets =>
          match executeBatch st sets exercise_map commands with
          | (st1, .error e) => (st1, .error e)
          | (st1, .ok modification_results) =>
            (st1, .ok modification_results.flatten)

/-! ## Sequences of AddSet storage operations (for the set-index invariant)

`runAdds` executes a sequence of `add_workout_set` /
`add_multiple_sets_to_workout` calls (the only two set-creating storage
operations) against the store, recording for each created row the
(session, exercise, assigned set_index) event in creation order. -/

/-- One set-creating storage call with its arguments. -/
inductive AddOp where
  | single (session_id exercise_id request_string_id : ℤ) (weight : F64)
      (reps : ℤ) (rpe : Option F64)
  | multi (session_id exercise_id request_string_id : ℤ) (weight : F64)
      (reps : ℤ) (rpe : Option F64) (set_count : ℤ)
deriving DecidableEq, Repr

/-- Execute the calls sequentially, returning the final store and the
creation events `(session_id, exercise_id, set_index)` in order. -/
def runAdds : Db → List AddOp → Db × List (ℤ × ℤ × ℤ)
  | db, [] => (db, [])
  | db, .single sid eid rsid w r rpe :: ops =>
    let (db1, row) := addWorkoutSet db sid eid rsid w r rpe
    let (db2, evs) := runAdds db1 ops
    (db2, (sid, eid, row.set_index) :: evs)
  | db, .multi sid eid rsid w r rpe cnt :: ops =>
    let (db1, rows) := addMultipleSetsToWorkout db sid eid rsid w r rpe cnt
    let (db2, evs) := runAdds db1 ops
    (db2, rows.map (fun s => (sid, eid, s.set_index)) ++ evs)

/-- The set-index events belonging to one (session, exercise) pair. -/
def eventsFor (evs : List (ℤ × ℤ × ℤ)) (session_id exercise_id : ℤ) :
    List ℤ :=
  (evs.filter (fun e => e.1 = session_id ∧ e.2.1 = exercise_id)).map
    (fun e => e.2.2)

/-- The stored set indices of one (session, exercise) pair, in rowid
order. -/
def pairIndices (db : Db) (session_id exercise_id : ℤ) : List ℤ :=
  (db.sets.filter (fun s =>
    s.session_id = session_id ∧ s.exercise_id = exercise_id)).map
    (fun s => s.set_index)

/-- `len` consecutive integers starting at `start`. -/
def intRange (start : ℤ) (len : ℕ) : List ℤ :=
  (List.range len).map (fun i => start + Int.ofNat i)

/-- A store with no rows at all (the state before any AddSet). -/
def emptyDb (now : ℤ) : Db :=
  { sessions := [], exercises := [], users := [], request_strings := [],
    sets := [], next_exercise_id := 1, next_user_id := 1,
    next_request_string_id := 1, next_set_id := 1, now := now }

/-! ## Concrete fixtures used by the settled claims -/

/-- A bench-press set, created at time 100. -/
def benchSet : WorkoutSet :=
  { id := 1, session_id := 1, exercise_id := 1, request_string_id := 1,
    weight := .finite 100, reps := 5, set_index := 1, rpe := none,
    notes := none, created_at := 100, updated_at := 100 }

/-- A squat set, created later (time 200) than the bench set. -/
def squatSet : WorkoutSet :=
  { id := 2, session_id := 1, exercise_id := 2, request_string_id := 1,
    weight := .finite 140, reps := 3, set_index := 1, rpe := none,
    notes := none, created_at := 200, updated_at := 200 }

/-- Exercise-id → name map for the two demo exercises. -/
def demoMap : List (ℤ × String) := [(1, "Bench Press"), (2, "Squat")]

/-- The in-progress demo workout session. -/
def demoSession : WorkoutSession :=
  { id := 1, user_id := none, name := some "Push Day",
    duration_seconds := 0, notes := none, status := .inProgress,
    summary := none, created_at := 50, updated_at := 50 }

/-- The Bench Press exercise row. -/
def benchExercise : Exercise :=
  { id := 1, slug := "bench-press", name := "Bench Press",
    description := none, created_at := 10, updated_at := 10 }

/-- Demo store: one in-progress workout holding one bench set. -/
def demoDb : Db :=
  { sessions := [demoSession], exercises := [benchExercise], users := [],
    request_strings := [], sets := [benchSet], next_exercise_id := 2,
    next_user_id := 1, next_request_string_id := 1, next_set_id := 2,
    now := 300 }

/-- Demo session state: workout 1 is active. -/
def demoSt : St := { workout_id := some 1, db := demoDb }

/-- A resolvable AddSet command for the known exercise. -/
def goodAdd : Command :=
  .addSet "Bench Press" (some (.finite 100)) (some 5) none none [] none
    "bench 100x5"

/-- A RemoveSet command with neither `set_id` nor `description` — its
resolution fails. -/
def badRemove : Command := .removeSet none none

/-- A mock LLM responder that always returns a fenced empty command
array. -/
def emptyResponder : String → String → String :=
  fun _ _ => "```json\n\x7b\"commands\": []\x7d\n```"

/-- Eleven sets of one exercise with creation times 1..11 (for the
per-exercise history claim). -/
def histSets : List WorkoutSet :=
  (List.range 11).map (fun i =>
    { id := Int.ofNat (i + 1), session_id := 1, exercise_id := 1,
      request_string_id := 1, weight := .finite 100, reps := 5,
      set_index := Int.ofNat (i + 1), rpe := none, notes := none,
      created_at := Int.ofNat (i + 1), updated_at := Int.ofNat (i + 1) })

/-- Store whose only exercise has eleven all-time sets. -/
def histDb : Db :=
  { sessions := [demoSession], exercises := [benchExercise], users := [],
    request_strings := [], sets := histSets, next_exercise_id := 2,
    next_user_id := 1, next_request_string_id := 2, next_set_id := 12,
    now := 300 }

/-- A set that carries stored notes (for the partial-update claim). -/
def notedSet : WorkoutSet :=
  { id := 1, session_id := 1, exercise_id := 1, request_string_id := 1,
    weight := .finite 100, reps := 5, set_index := 1,
    rpe := some (.finite 8), notes := some "felt strong",
    created_at := 100, updated_at := 100 }

/-- Store holding the noted set. -/
def notedDb : Db :=
  { sessions := [demoSession], exercises := [benchExercise], users := [],
    request_strings := [], sets := [notedSet], next_exercise_id := 2,
    next_user_id := 1, next_request_string_id := 1, next_set_id := 2,
    now := 300 }

/-- Parse a JSON text then deserialize it as a ParsedSet, the composition
call_json applies to the set-parsing response. -/
def parsedSetFromText (s : String) : Except String ParsedSet :=
  (parseJsonText s).bind parsedSetFromJson

/-- The per-pair index invariant: the stored max equals the count. -/
def IndexInv (db : Db) (sid eid : ℤ) : Prop :=
  maxSetIndex db sid eid =
    if pairIndices db sid eid = [] then none
    else some ((pairIndices db sid eid).length : ℤ)

/-- How many sets a list of operations adds to one pair. -/
def opCount (sid eid : ℤ) : List AddOp → ℕ
  | [] => 0
  | .single s e _ _ _ _ :: ops =>
    (if s = sid ∧ e = eid then 1 else 0) + opCount sid eid ops
  | .multi s e _ _ _ _ cnt :: ops =>
    (if s = sid ∧ e = eid then cnt.toNat else 0) + opCount sid eid ops

/-! ## Supporting lemmas -/

theorem mem_insertB {α : Type} {le : α → α → Bool} {x y : α} {l : List α} :
    x ∈ insertB le y l ↔ x = y ∨ x ∈ l := by
  induction l with
  | nil => simp [insertB]
  | cons a as ih =>
    simp only [insertB]
    split
    · simp only [List.mem_cons, ih]
      tauto
    · simp [List.mem_cons]

theorem mem_sortFold {α : Type} {le : α → α → Bool} {x : α} :
    ∀ {l acc : List α}, x ∈ List.foldl (fun acc z => insertB le z acc) acc l ↔ x ∈ acc ∨ x ∈ l := by
  intro l
  induction l with
  | nil => simp
  | cons a as ih =>
    intro acc
    simp only [List.foldl_cons]
    rw [ih]
    simp only [mem_insertB, List.mem_cons]
    tauto

theorem mem_sortByStable {α : Type} {le : α → α → Bool} {x : α} {l : List α} :
    x ∈ sortByStable le l ↔ x ∈ l := by
  unfold sortByStable
  rw [mem_sortFold]
  simp

theorem leadMatch_append (p l : List Char) : leadMatch p (p ++ l) = some l := by
  induction p with
  | nil => rfl
  | cons a ps ih => simp [leadMatch, ih]

theorem leadMatch_split (p q l : List Char) :
    leadMatch (p ++ q) l =
      match leadMatch p l with
      | none => none
      | some r => leadMatch q r := by
  induction p generalizing l with
  | nil => simp [leadMatch]
  | cons a ps ih =>
    cases l with
    | nil => simp [leadMatch]
    | cons c cs =>
      simp only [List.cons_append, leadMatch]
      by_cases h : a = c
      · simp [h, ih]
      · simp [h]

theorem trailMatch_append (suf l : List Char) : trailMatch suf (l ++ suf) = some l := by
  unfold trailMatch
  rw [List.reverse_append, leadMatch_append]
  simp

theorem dropLeadWs_cons_false {c : Char} (h : isWsChar c = false) (l : List Char) :
    dropLeadWs (c :: l) = c :: l := by
  simp [dropLeadWs, List.dropWhile_cons, h]

theorem dropLeadWs_cons_true {c : Char} (h : isWsChar c = true) (l : List Char) :
    dropLeadWs (c :: l) = dropLeadWs l := by
  simp [dropLeadWs, List.dropWhile_cons, h]

theorem dropWhile_append_singleton {p : Char → Bool} {c : Char} (h : p c = false) :
    ∀ x : List Char, List.dropWhile p (x ++ [c]) = List.dropWhile p x ++ [c] := by
  intro x
  induction x with
  | nil => simp [List.dropWhile_cons, h]
  | cons a y ih =>
    simp only [List.cons_append, List.dropWhile_cons]
    by_cases ha : p a = true
    · simp [ha, ih]
    · simp at ha
      simp [ha]

theorem dropTrailWs_concat_false {d : Char} (h : isWsChar d = false) (l : List Char) :
    dropTrailWs (l ++ [d]) = l ++ [d] := by
  unfold dropTrailWs
  rw [List.reverse_append]
  simp only [List.reverse_cons, List.reverse_nil, List.nil_append, List.singleton_append]
  rw [List.dropWhile_cons]
  simp [h]

theorem dropTrailWs_concat_true {d : Char} (h : isWsChar d = true) (l : List Char) :
    dropTrailWs (l ++ [d]) = dropTrailWs l := by
  unfold dropTrailWs
  rw [List.reverse_append]
  simp only [List.reverse_cons, List.reverse_nil, List.nil_append, List.singleton_append]
  rw [List.dropWhile_cons]
  simp [h]

theorem dropTrailWs_cons_false {c : Char} (h : isWsChar c = false) (t : List Char) :
    dropTrailWs (c :: t) = c :: dropTrailWs t := by
  unfold dropTrailWs
  rw [show (c :: t).reverse = t.reverse ++ [c] by simp]
  rw [dropWhile_append_singleton h]
  simp

theorem dropLeadWs_head_false {l : List Char} {c : Char} {t : List Char}
    (h : dropLeadWs l = c :: t) : isWsChar c = false := by
  induction l with
  | nil => simp [dropLeadWs] at h
  | cons a as ih =>
    by_cases ha : isWsChar a = true
    · rw [dropLeadWs_cons_true ha] at h
      exact ih h
    · simp at ha
      rw [dropLeadWs_cons_false ha] at h
      cases h
      exact ha

theorem dropLeadWs_idem (l : List Char) : dropLeadWs (dropLeadWs l) = dropLeadWs l := by
  induction l with
  | nil => rfl
  | cons a as ih =>
    by_cases ha : isWsChar a = true
    · rw [dropLeadWs_cons_true ha]
      exact ih
    · simp at ha
      rw [dropLeadWs_cons_false ha, dropLeadWs_cons_false ha]

theorem dropWhile_idem {p : Char → Bool} (l : List Char) :
    List.dropWhile p (List.dropWhile p l) = List.dropWhile p l := by
  induction l with
  | nil => rfl
  | cons a as ih =>
    by_cases ha : p a = true
    · simp [List.dropWhile_cons, ha, ih]
    · simp at ha
      simp [List.dropWhile_cons, ha]

theorem trimL_strip_nl (l : List Char) : trimL ('\n' :: (l ++ ['\n'])) = trimL l := by
  unfold trimL
  rw [dropLeadWs_cons_true (c := '\n') (by decide)]
  cases hd : dropLeadWs l with
  | nil =>
    have h1 : dropLeadWs (l ++ ['\n']) = [] := by
      unfold dropLeadWs at hd ⊢
      rw [List.dropWhile_append, hd]
      simp
      decide
    rw [h1]
  | cons c t =>
    have h1 : dropLeadWs (l ++ ['\n']) = (c :: t) ++ ['\n'] := by
      unfold dropLeadWs at hd ⊢
      rw [List.dropWhile_append, hd]
      simp
    rw [h1]
    exact dropTrailWs_concat_true (by decide) (c :: t)

theorem trimL_idem (l : List Char) : trimL (trimL l) = trimL l := by
  unfold trimL
  cases hd : dropLeadWs l with
  | nil => simp [dropTrailWs, dropLeadWs]
  | cons c t =>
    have hc : isWsChar c = false := dropLeadWs_head_false hd
    rw [dropTrailWs_cons_false hc]
    rw [dropLeadWs_cons_false hc]
    rw [dropTrailWs_cons_false hc]
    congr 1
    unfold dropTrailWs
    rw [List.reverse_reverse, dropWhile_idem]

theorem trimL_eq_self_of (c d : Char) (hc : isWsChar c = false)
    (hd : isWsChar d = false) (m : List Char) :
    trimL (c :: (m ++ [d])) = c :: (m ++ [d]) := by
  unfold trimL
  rw [dropLeadWs_cons_false hc]
  rw [show c :: (m ++ [d]) = (c :: m) ++ [d] from rfl]
  exact dropTrailWs_concat_false hd (c :: m)

example : ("```json\n").data = ['`', '`', '`', 'j', 's', 'o', 'n', '\n'] := rfl
example (s t : String) : (s ++ t).data = s.data ++ t.data := String.data_append s t

theorem stripFencesL_json_fence (l : List Char) :
    stripFencesL (['`', '`', '`', 'j', 's', 'o', 'n', '\n'] ++ (l ++ ['\n', '`', '`', '`'])) =
      trimL l := by
  have htrim : trimL (['`', '`', '`', 'j', 's', 'o', 'n', '\n'] ++ (l ++ ['\n', '`', '`', '`'])) =
      ['`', '`', '`', 'j', 's', 'o', 'n', '\n'] ++ (l ++ ['\n', '`', '`', '`']) := by
    have h1 : (['`', '`', '`', 'j', 's', 'o', 'n', '\n'] : List Char) ++ (l ++ ['\n', '`', '`', '`']) =
        '`' :: (('`' :: '`' :: 'j' :: 's' :: 'o' :: 'n' :: '\n' :: (l ++ ['\n', '`', '`'])) ++ ['`']) := by
      simp
    rw [h1, trimL_eq_self_of _ _ (by decide) (by decide)]
  have hlead : leadMatch "```json".data
      (['`', '`', '`', 'j', 's', 'o', 'n', '\n'] ++ (l ++ ['\n', '`', '`', '`'])) =
      some ('\n' :: (l ++ ['\n', '`', '`', '`'])) := by
    have h2 : (['`', '`', '`', 'j', 's', 'o', 'n', '\n'] : List Char) ++ (l ++ ['\n', '`', '`', '`']) =
        "```json".data ++ ('\n' :: (l ++ ['\n', '`', '`', '`'])) := by
      simp
    rw [h2, leadMatch_append]
  have htrail : trailMatch "```".data ('\n' :: (l ++ ['\n', '`', '`', '`'])) =
      some ('\n' :: (l ++ ['\n'])) := by
    have h3 : '\n' :: (l ++ ['\n', '`', '`', '`']) = ('\n' :: (l ++ ['\n'])) ++ "```".data := by
      simp
    rw [h3, trailMatch_append]
  unfold stripFencesL
  simp only [htrim, hlead, htrail]
  exact trimL_strip_nl l

theorem stripFencesL_bare_fence (l : List Char) :
    stripFencesL (['`', '`', '`', '\n'] ++ (l ++ ['\n', '`', '`', '`'])) = trimL l := by
  have htrim : trimL (['`', '`', '`', '\n'] ++ (l ++ ['\n', '`', '`', '`'])) =
      ['`', '`', '`', '\n'] ++ (l ++ ['\n', '`', '`', '`']) := by
    have h1 : (['`', '`', '`', '\n'] : List Char) ++ (l ++ ['\n', '`', '`', '`']) =
        '`' :: (('`' :: '`' :: '\n' :: (l ++ ['\n', '`', '`'])) ++ ['`']) := by
      simp
    rw [h1, trimL_eq_self_of _ _ (by decide) (by decide)]
  have hjson : leadMatch "```json".data
      (['`', '`', '`', '\n'] ++ (l ++ ['\n', '`', '`', '`'])) = none := by
    have h2 : (['`', '`', '`', '\n'] : List Char) ++ (l ++ ['\n', '`', '`', '`']) =
        "```".data ++ ('\n' :: (l ++ ['\n', '`', '`', '`'])) := by
      simp
    have h4 : ("```json".data : List Char) = "```".data ++ "json".data := rfl
    rw [h4, leadMatch_split, h2, leadMatch_append]
    rfl
  have hbare : leadMatch "```".data
      (['`', '`', '`', '\n'] ++ (l ++ ['\n', '`', '`', '`'])) =
      some ('\n' :: (l ++ ['\n', '`', '`', '`'])) := by
    have h2 : (['`', '`', '`', '\n'] : List Char) ++ (l ++ ['\n', '`', '`', '`'])  =
        "```".data ++ ('\n' :: (l ++ ['\n', '`', '`', '`'])) := by
      simp
    rw [h2, leadMatch_append]
  have htrail : trailMatch "```".data ('\n' :: (l ++ ['\n', '`', '`', '`'])) =
      some ('\n' :: (l ++ ['\n'])) := by
    have h3 : '\n' :: (l ++ ['\n', '`', '`', '`']) = ('\n' :: (l ++ ['\n'])) ++ "```".data := by
      simp
    rw [h3, trailMatch_append]
  unfold stripFencesL
  simp only [htrim, hjson, hbare, htrail]
  exact trimL_strip_nl l

theorem stripFencesL_unfenced (l : List Char)
    (h1 : leadMatch "```".data (trimL l) = none)
    (h2 : trailMatch "```".data (trimL l) = none) :
    stripFencesL l = trimL l := by
  have hjson : leadMatch "```json".data (trimL l) = none := by
    have h4 : ("```json".data : List Char) = "```".data ++ "json".data := rfl
    rw [h4, leadMatch_split, h1]
  unfold stripFencesL
  simp only [hjson, h1, h2]
  exact trimL_idem l

theorem maxSetIndex_eq (db : Db) (sid eid : ℤ) :
    maxSetIndex db sid eid = (pairIndices db sid eid).max? := rfl

theorem max?_concat (l : List ℤ) (x : ℤ) :
    (l ++ [x]).max? = some (match l.max? with
      | none => x
      | some m => max m x) := by
  cases l with
  | nil => rfl
  | cons a as => simp [List.max?, List.foldl_append]

theorem pairIndices_sets_append (db db' : Db) (row : WorkoutSet) (sid eid : ℤ)
    (h : db'.sets = db.sets ++ [row]) :
    pairIndices db' sid eid = pairIndices db sid eid ++
      (if row.session_id = sid ∧ row.exercise_id = eid then [row.set_index] else []) := by
  unfold pairIndices
  rw [h, List.filter_append, List.map_append]
  congr 1
  by_cases hc : row.session_id = sid ∧ row.exercise_id = eid
  · simp [hc]
  · simp [List.filter_cons, hc]

theorem IndexInv_of_eq {db db' : Db} {sid eid : ℤ}
    (h : pairIndices db' sid eid = pairIndices db sid eid)
    (hInv : IndexInv db sid eid) : IndexInv db' sid eid := by
  unfold IndexInv at hInv ⊢
  rw [maxSetIndex_eq, h, ← maxSetIndex_eq]
  exact hInv

theorem step_inv {db db' : Db} {sid eid : ℤ} {row : WorkoutSet}
    (h : db'.sets = db.sets ++ [row])
    (hrow : row.session_id = sid ∧ row.exercise_id = eid)
    (hidx : row.set_index = ((pairIndices db sid eid).length : ℤ) + 1)
    (hInv : IndexInv db sid eid) :
    IndexInv db' sid eid ∧
    pairIndices db' sid eid = pairIndices db sid eid ++ [row.set_index] := by
  have hp : pairIndices db' sid eid = pairIndices db sid eid ++ [row.set_index] := by
    rw [pairIndices_sets_append db db' row sid eid h]
    simp [hrow]
  refine ⟨?_, hp⟩
  unfold IndexInv at hInv ⊢
  rw [maxSetIndex_eq, hp, max?_concat]
  rw [maxSetIndex_eq] at hInv
  cases hnil : pairIndices db sid eid with
  | nil =>
    rw [hnil] at hidx
    simp only [List.length_nil, Nat.cast_zero, zero_add] at hidx
    simp only [List.max?_nil, List.nil_append]
    rw [if_neg (by simp)]
    simp [hidx]
  | cons a as =>
    rw [hnil] at hidx
    rw [hnil] at hInv
    rw [if_neg (by simp)] at hInv
    rw [hInv]
    have hlen : ((a :: as).length : ℤ) ≤ row.set_index := by
      rw [hidx]
      omega
    simp only [max_eq_right hlen]
    rw [if_neg (by simp)]
    have : (((a :: as) ++ [row.set_index]).length : ℤ) = ((a :: as).length : ℤ) + 1 := by
      simp
    rw [this, hidx]

theorem intRange_cons (s : ℤ) (k : ℕ) : intRange s (k + 1) = s :: intRange (s + 1) k := by
  unfold intRange
  rw [List.range_succ_eq_map]
  rw [List.map_cons, List.map_map]
  simp only [Int.ofNat_eq_coe, Nat.cast_zero, add_zero]
  congr 1
  apply List.map_congr_left
  intro i _
  simp only [Function.comp_apply, Nat.succ_eq_add_one]
  push_cast
  ring

theorem pairwise_intRange (s : ℤ) (k : ℕ) : (intRange s k).Pairwise (· < ·) := by
  unfold intRange
  refine List.Pairwise.map _ ?_ (List.pairwise_lt_range k)
  intro a b hab
  simp only [Int.ofNat_eq_coe]
  omega

theorem intRange_length (s : ℤ) (k : ℕ) : (intRange s k).length = k := by
  simp [intRange]

theorem intRange_append (s : ℤ) (m n : ℕ) :
    intRange s (m + n) = intRange s m ++ intRange (s + m) n := by
  unfold intRange
  rw [List.range_add, List.map_append, List.map_map]
  congr 1
  apply List.map_congr_left
  intro i _
  simp only [Function.comp_apply, Int.ofNat_eq_coe]
  push_cast
  ring

theorem eventsFor_cons_same (sid eid idx : ℤ) (evs : List (ℤ × ℤ × ℤ)) :
    eventsFor ((sid, eid, idx) :: evs) sid eid = idx :: eventsFor evs sid eid := by
  simp [eventsFor, List.filter_cons]

theorem eventsFor_cons_other {s e sid eid : ℤ} (idx : ℤ) (evs : List (ℤ × ℤ × ℤ))
    (h : ¬(s = sid ∧ e = eid)) :
    eventsFor ((s, e, idx) :: evs) sid eid = eventsFor evs sid eid := by
  simp [eventsFor, List.filter_cons, h]

theorem eventsFor_append (l1 l2 : List (ℤ × ℤ × ℤ)) (sid eid : ℤ) :
    eventsFor (l1 ++ l2) sid eid = eventsFor l1 sid eid ++ eventsFor l2 sid eid := by
  simp [eventsFor, List.filter_append]

theorem eventsFor_map_rows_same (rows : List WorkoutSet) (sid eid : ℤ) :
    eventsFor (rows.map (fun s => (sid, eid, s.set_index))) sid eid =
      rows.map (fun s => s.set_index) := by
  induction rows with
  | nil => rfl
  | cons a rs ih =>
    simp only [List.map_cons]
    rw [eventsFor_cons_same]
    rw [ih]

theorem eventsFor_map_rows_other {s0 e0 sid eid : ℤ} (rows : List WorkoutSet)
    (h : ¬(s0 = sid ∧ e0 = eid)) :
    eventsFor (rows.map (fun s => (s0, e0, s.set_index))) sid eid = [] := by
  induction rows with
  | nil => rfl
  | cons a rs ih =>
    simp only [List.map_cons]
    rw [eventsFor_cons_other _ _ h]
    exact ih

theorem addWorkoutSet_next (db : Db) (sid eid : ℤ) (hInv : IndexInv db sid eid) :
    (match maxSetIndex db sid eid with
      | some n => n + 1
      | none => 1) = ((pairIndices db sid eid).length : ℤ) + 1 := by
  unfold IndexInv at hInv
  rw [hInv]
  cases hnil : pairIndices db sid eid with
  | nil => simp [hnil]
  | cons a as => simp [hnil]

theorem addWorkoutSet_spec (db : Db) (sid eid rsid : ℤ) (w : F64) (r : ℤ)
    (rpe : Option F64) (hInv : IndexInv db sid eid) :
    (addWorkoutSet db sid eid rsid w r rpe).2.set_index =
      ((pairIndices db sid eid).length : ℤ) + 1 ∧
    IndexInv (addWorkoutSet db sid eid rsid w r rpe).1 sid eid ∧
    (pairIndices (addWorkoutSet db sid eid rsid w r rpe).1 sid eid).length =
      (pairIndices db sid eid).length + 1 ∧
    (∀ sid' eid', ¬(sid' = sid ∧ eid' = eid) →
      pairIndices (addWorkoutSet db sid eid rsid w r rpe).1 sid' eid' =
        pairIndices db sid' eid') := by
  have hnext := addWorkoutSet_next db sid eid hInv
  have hidx : (addWorkoutSet db sid eid rsid w r rpe).2.set_index =
      ((pairIndices db sid eid).length : ℤ) + 1 := by
    simp only [addWorkoutSet]
    exact hnext
  have hsets : (addWorkoutSet db sid eid rsid w r rpe).1.sets =
      db.sets ++ [(addWorkoutSet db sid eid rsid w r rpe).2] := by
    simp only [addWorkoutSet]
  have hrow : (addWorkoutSet db sid eid rsid w r rpe).2.session_id = sid ∧
      (addWorkoutSet db sid eid rsid w r rpe).2.exercise_id = eid := ⟨rfl, rfl⟩
  obtain ⟨hInv2, hp⟩ := step_inv hsets hrow hidx hInv
  refine ⟨hidx, hInv2, ?_, ?_⟩
  · rw [hp]
    simp
  · intro sid' eid' hne
    rw [pairIndices_sets_append db _ _ sid' eid' hsets]
    rw [if_neg]
    · simp
    · intro hcc
      apply hne
      exact ⟨hcc.1 ▸ hrow.1, hcc.2 ▸ hrow.2⟩

theorem addMultipleLoop_spec (sid eid rsid : ℤ) (w : F64) (r : ℤ)
    (rpe : Option F64) (start : ℤ) :
    ∀ (k : ℕ) (db : Db) (i : ℤ),
      IndexInv db sid eid →
      start + i = ((pairIndices db sid eid).length : ℤ) + 1 →
      ((addMultipleLoop sid eid rsid w r rpe start db i k).2.map
          (fun s => s.set_index) = intRange (start + i) k) ∧
      IndexInv (addMultipleLoop sid eid rsid w r rpe start db i k).1 sid eid ∧
      ((pairIndices (addMultipleLoop sid eid rsid w r rpe start db i k).1 sid eid).length =
        (pairIndices db sid eid).length + k) ∧
      (∀ sid' eid', ¬(sid' = sid ∧ eid' = eid) →
        pairIndices (addMultipleLoop sid eid rsid w r rpe start db i k).1 sid' eid' =
          pairIndices db sid' eid') := by
  intro k
  induction k with
  | zero =>
    intro db i hInv hsi
    refine ⟨?_, hInv, ?_, ?_⟩
    · simp [addMultipleLoop, intRange]
    · simp [addMultipleLoop]
    · intro sid' eid' hne
      simp [addMultipleLoop]
  | succ k ih =>
    intro db i hInv hsi
    obtain ⟨row, hrowdef⟩ : ∃ row : WorkoutSet,
        row = { id := db.next_set_id, session_id := sid,
                exercise_id := eid, request_string_id := rsid, weight := w,
                reps := r, set_index := start + i, rpe := rpe, notes := none,
                created_at := db.now, updated_at := db.now } := ⟨_, rfl⟩
    obtain ⟨db1, hdb1def⟩ : ∃ db1 : Db,
        db1 = { db with sets := db.sets ++ [row], next_set_id := db.next_set_id + 1 } :=
      ⟨_, rfl⟩
    have hstep : addMultipleLoop sid eid rsid w r rpe start db i (k + 1) =
        ((addMultipleLoop sid eid rsid w r rpe start db1 (i + 1) k).1,
          row :: (addMultipleLoop sid eid rsid w r rpe start db1 (i + 1) k).2) := by
      rw [hdb1def, hrowdef]
      simp only [addMultipleLoop]
    rw [hstep]
    have hsets : db1.sets = db.sets ++ [row] := by rw [hdb1def]
    have hrowp : row.session_id = sid ∧ row.exercise_id = eid := by
      rw [hrowdef]
      exact ⟨rfl, rfl⟩
    have hidx : row.set_index = ((pairIndices db sid eid).length : ℤ) + 1 := by
      rw [hrowdef]
      exact hsi
    obtain ⟨hInv1, hp1⟩ := step_inv hsets hrowp hidx hInv
    have hlen1 : (pairIndices db1 sid eid).length =
        (pairIndices db sid eid).length + 1 := by
      rw [hp1]
      simp
    have hsi1 : start + (i + 1) = ((pairIndices db1 sid eid).length : ℤ) + 1 := by
      rw [hlen1]
      push_cast
      omega
    obtain ⟨ih1, ih2, ih3, ih4⟩ := ih db1 (i + 1) hInv1 hsi1
    refine ⟨?_, ih2, ?_, ?_⟩
    · rw [List.map_cons, ih1]
      have harr : start + i + 1 = start + (i + 1) := by ring
      rw [intRange_cons, harr]
      have hridx : row.set_index = start + i := by rw [hrowdef]
      rw [hridx]
    · rw [ih3, hlen1]
      omega
    · intro sid' eid' hne
      rw [ih4 sid' eid' hne]
      rw [pairIndices_sets_append db db1 row sid' eid' hsets]
      rw [if_neg]
      · simp
      · intro hcc
        apply hne
        exact ⟨hcc.1 ▸ hrowp.1, hcc.2 ▸ hrowp.2⟩

theorem addMultipleSets_spec (db : Db) (sid eid rsid : ℤ) (w : F64) (r : ℤ)
    (rpe : Option F64) (cnt : ℤ) (hInv : IndexInv db sid eid) :
    ((addMultipleSetsToWorkout db sid eid rsid w r rpe cnt).2.map
        (fun s => s.set_index) =
      intRange (((pairIndices db sid eid).length : ℤ) + 1) cnt.toNat) ∧
    IndexInv (addMultipleSetsToWorkout db sid eid rsid w r rpe cnt).1 sid eid ∧
    ((pairIndices (addMultipleSetsToWorkout db sid eid rsid w r rpe cnt).1 sid eid).length =
      (pairIndices db sid eid).length + cnt.toNat) ∧
    (∀ sid' eid', ¬(sid' = sid ∧ eid' = eid) →
      pairIndices (addMultipleSetsToWorkout db sid eid rsid w r rpe cnt).1 sid' eid' =
        pairIndices db sid' eid') := by
  have hnext := addWorkoutSet_next db sid eid hInv
  have hspec := addMultipleLoop_spec sid eid rsid w r rpe
    (match maxSetIndex db sid eid with
      | some n => n + 1
      | none => 1) cnt.toNat db 0 hInv (by rw [add_zero, hnext])
  unfold addMultipleSetsToWorkout
  obtain ⟨h1, h2, h3, h4⟩ := hspec
  refine ⟨?_, h2, h3, h4⟩
  rw [h1, add_zero, hnext]

theorem addMultipleLoop_other (s e rs : ℤ) (w : F64) (r : ℤ) (rp : Option F64)
    (start : ℤ) :
    ∀ (k : ℕ) (db : Db) (i : ℤ) (sid eid : ℤ), ¬(sid = s ∧ eid = e) →
      pairIndices (addMultipleLoop s e rs w r rp start db i k).1 sid eid =
        pairIndices db sid eid := by
  intro k
  induction k with
  | zero =>
    intro db i sid eid hne
    simp [addMultipleLoop]
  | succ k ih =>
    intro db i sid eid hne
    obtain ⟨row, hrowdef⟩ : ∃ row : WorkoutSet,
        row = { id := db.next_set_id, session_id := s,
                exercise_id := e, request_string_id := rs, weight := w,
                reps := r, set_index := start + i, rpe := rp, notes := none,
                created_at := db.now, updated_at := db.now } := ⟨_, rfl⟩
    obtain ⟨db1, hdb1def⟩ : ∃ db1 : Db,
        db1 = { db with sets := db.sets ++ [row], next_set_id := db.next_set_id + 1 } :=
      ⟨_, rfl⟩
    have hstep : addMultipleLoop s e rs w r rp start db i (k + 1) =
        ((addMultipleLoop s e rs w r rp start db1 (i + 1) k).1,
          row :: (addMultipleLoop s e rs w r rp start db1 (i + 1) k).2) := by
      rw [hdb1def, hrowdef]
      simp only [addMultipleLoop]
    rw [hstep]
    have hsets : db1.sets = db.sets ++ [row] := by rw [hdb1def]
    have hrowp : row.session_id = s ∧ row.exercise_id = e := by
      rw [hrowdef]
      exact ⟨rfl, rfl⟩
    rw [ih db1 (i + 1) sid eid hne]
    rw [pairIndices_sets_append db db1 row sid eid hsets]
    rw [if_neg]
    · simp
    · intro hcc
      apply hne
      exact ⟨hcc.1 ▸ hrowp.1, hcc.2 ▸ hrowp.2⟩

theorem addMultipleSets_other (db : Db) (s e rs : ℤ) (w : F64) (r : ℤ)
    (rp : Option F64) (cnt : ℤ) (sid eid : ℤ) (hne : ¬(sid = s ∧ eid = e)) :
    pairIndices (addMultipleSetsToWorkout db s e rs w r rp cnt).1 sid eid =
      pairIndices db sid eid := by
  unfold addMultipleSetsToWorkout
  exact addMultipleLoop_other s e rs w r rp _ cnt.toNat db 0 sid eid hne

theorem addWorkoutSet_other (db : Db) (s e rs : ℤ) (w : F64) (r : ℤ)
    (rp : Option F64) (sid eid : ℤ) (hne : ¬(sid = s ∧ eid = e)) :
    pairIndices (addWorkoutSet db s e rs w r rp).1 sid eid =
      pairIndices db sid eid := by
  have hsets : (addWorkoutSet db s e rs w r rp).1.sets =
      db.sets ++ [(addWorkoutSet db s e rs w r rp).2] := rfl
  have hrowp : (addWorkoutSet db s e rs w r rp).2.session_id = s ∧
      (addWorkoutSet db s e rs w r rp).2.exercise_id = e := ⟨rfl, rfl⟩
  rw [pairIndices_sets_append db _ _ sid eid hsets]
  rw [if_neg]
  · simp
  · intro hcc
    apply hne
    exact ⟨hcc.1 ▸ hrowp.1, hcc.2 ▸ hrowp.2⟩

theorem runAdds_spec (sid eid : ℤ) :
    ∀ (ops : List AddOp) (db : Db),
      IndexInv db sid eid →
      (eventsFor (runAdds db ops).2 sid eid =
        intRange (((pairIndices db sid eid).length : ℤ) + 1) (opCount sid eid ops)) ∧
      IndexInv (runAdds db ops).1 sid eid ∧
      ((pairIndices (runAdds db ops).1 sid eid).length =
        (pairIndices db sid eid).length + opCount sid eid ops) := by
  intro ops
  induction ops with
  | nil =>
    intro db hInv
    refine ⟨?_, hInv, ?_⟩
    · simp [runAdds, eventsFor, opCount, intRange]
    · simp [runAdds, opCount]
  | cons op ops ih =>
    intro db hInv
    cases op with
    | single s e rs w r rp =>
      have hstep : runAdds db (.single s e rs w r rp :: ops) =
          ((runAdds (addWorkoutSet db s e rs w r rp).1 ops).1,
            (s, e, (addWorkoutSet db s e rs w r rp).2.set_index) ::
              (runAdds (addWorkoutSet db s e rs w r rp).1 ops).2) := by
        simp only [runAdds]
      rw [hstep]
      by_cases hp : s = sid ∧ e = eid
      · obtain ⟨rfl, rfl⟩ := hp
        obtain ⟨ha1, ha2, ha3, _⟩ := addWorkoutSet_spec db s e rs w r rp hInv
        obtain ⟨ih1, ih2, ih3⟩ := ih (addWorkoutSet db s e rs w r rp).1 ha2
        have hoc : opCount s e (AddOp.single s e rs w r rp :: ops) =
            1 + opCount s e ops := by
          simp [opCount]
        refine ⟨?_, ih2, ?_⟩
        · rw [eventsFor_cons_same, ih1, ha1, ha3, hoc]
          rw [Nat.add_comm 1 (opCount s e ops), intRange_cons]
          push_cast
          ring_nf
        · rw [ih3, ha3, hoc]
          omega
      · have hun : pairIndices (addWorkoutSet db s e rs w r rp).1 sid eid =
            pairIndices db sid eid :=
          addWorkoutSet_other db s e rs w r rp sid eid
            (fun hq => hp ⟨hq.1.symm, hq.2.symm⟩)
        have hInv1 : IndexInv (addWorkoutSet db s e rs w r rp).1 sid eid :=
          IndexInv_of_eq hun hInv
        obtain ⟨ih1, ih2, ih3⟩ := ih (addWorkoutSet db s e rs w r rp).1 hInv1
        have hoc : opCount sid eid (AddOp.single s e rs w r rp :: ops) =
            opCount sid eid ops := by
          simp [opCount, hp]
        refine ⟨?_, ih2, ?_⟩
        · rw [eventsFor_cons_other _ _ hp, ih1, hun, hoc]
        · rw [ih3, hun, hoc]
    | multi s e rs w r rp cnt =>
      have hstep : runAdds db (.multi s e rs w r rp cnt :: ops) =
          ((runAdds (addMultipleSetsToWorkout db s e rs w r rp cnt).1 ops).1,
            ((addMultipleSetsToWorkout db s e rs w r rp cnt).2.map
              (fun x => (s, e, x.set_index))) ++
              (runAdds (addMultipleSetsToWorkout db s e rs w r rp cnt).1 ops).2) := by
        simp only [runAdds]
      rw [hstep]
      by_cases hp : s = sid ∧ e = eid
      · obtain ⟨rfl, rfl⟩ := hp
        obtain ⟨hm1, hm2, hm3, _⟩ := addMultipleSets_spec db s e rs w r rp cnt hInv
        obtain ⟨ih1, ih2, ih3⟩ := ih (addMultipleSetsToWorkout db s e rs w r rp cnt).1 hm2
        have hoc : opCount s e (AddOp.multi s e rs w r rp cnt :: ops) =
            cnt.toNat + opCount s e ops := by
          simp [opCount]
        refine ⟨?_, ih2, ?_⟩
        · rw [eventsFor_append, eventsFor_map_rows_same, hm1, ih1, hm3, hoc]
          rw [intRange_append]
          congr 1
          push_cast
          ring_nf
        · rw [ih3, hm3, hoc]
          omega
      · have hun : pairIndices (addMultipleSetsToWorkout db s e rs w r rp cnt).1 sid eid =
            pairIndices db sid eid :=
          addMultipleSets_other db s e rs w r rp cnt sid eid
            (fun hq => hp ⟨hq.1.symm, hq.2.symm⟩)
        have hInv1 : IndexInv (addMultipleSetsToWorkout db s e rs w r rp cnt).1 sid eid :=
          IndexInv_of_eq hun hInv
        obtain ⟨ih1, ih2, ih3⟩ := ih (addMultipleSetsToWorkout db s e rs w r rp cnt).1 hInv1
        have hoc : opCount sid eid (AddOp.multi s e rs w r rp cnt :: ops) =
            opCount sid eid ops := by
          simp [opCount, hp]
        refine ⟨?_, ih2, ?_⟩
        · rw [eventsFor_append, eventsFor_map_rows_other _ hp, ih1, hun, hoc]
          simp
        · rw [ih3, hun, hoc]

/-! ## The settled claims -/

/-- C1: the exercise branch is shadowed. With a bench-press set (id 1, older)
and a squat set (id 2, newer), a description naming the exercise together with
"last" still resolves through the global "last" branch: "last bench press set"
returns the squat set id, exactly like "last set", instead of the bench set. -/
theorem c1_exercise_filter_shadowed_by_global_last :
    resolveSetIdFromDescription "last set" [benchSet, squatSet] demoMap = some squatSet.id ∧
    resolveSetIdFromDescription "last bench press set" [benchSet, squatSet] demoMap = some squatSet.id ∧
    squatSet.id ≠ benchSet.id := ⟨rfl, rfl, by decide⟩

/-- C2 counterexample: a batch whose first command adds a set and whose second
command fails returns only the bare error of the failing command. The
modifications of the already-applied add are not reported, yet its effect on
the store remains (sets [1, 2]). -/
theorem c2_counterexample :
    (executeBatch demoSt [benchSet] demoMap [goodAdd, badRemove]).2 =
      .error "Could not resolve set_id for remove_set command" ∧
    ((executeBatch demoSt [benchSet] demoMap [goodAdd, badRemove]).1).db.sets.map (fun s => s.id) = [1, 2] ∧
    (executeBatch demoSt [benchSet] demoMap [goodAdd]).2 =
      .ok [[{ modification_type := .setAdded, set_id := some 2, set_ids := [2],
              exercise_id := some 1,
              set := some { id := 2, exercise_id := 1, weight := .finite 100, reps := 5, rpe := none, notes := none },
              sets := some [{ id := 2, exercise_id := 1, weight := .finite 100, reps := 5, rpe := none, notes := none }],
              exercise := some { id := 1, name := "Bench Press" } }]] := ⟨rfl, rfl, rfl⟩

/-- C2: execution is fail-fast. As soon as one command of a batch errors, the
batch returns that single error unchanged; the commands after it do not run
and the modifications of the already-applied commands are dropped from the
report (their store effects persist). -/
theorem c2_batch_aborts_at_first_error (st : St) (sets : List WorkoutSet) (emap : List (ℤ × String))
    (cs1 : List Command) (c : Command) (cs2 : List Command)
    (st1 st2 : St) (mods : List (List Modification)) (e : String)
    (h1 : executeBatch st sets emap cs1 = (st1, .ok mods))
    (h2 : executeCommand st1 sets emap c = (st2, .error e)) :
    executeBatch st sets emap (cs1 ++ c :: cs2) = (st2, .error e) := by
  induction cs1 generalizing st mods with
  | nil =>
    have hst : st = st1 := congrArg Prod.fst h1
    subst hst
    simp only [List.nil_append, executeBatch, h2]
  | cons a as ih =>
    rw [List.cons_append]
    simp only [executeBatch] at h1 ⊢
    cases ha : executeCommand st sets emap a with
    | mk sta r =>
      rw [ha] at h1
      cases r with
      | error ea =>
        have hsnd := congrArg Prod.snd h1
        simp at hsnd
      | ok ma =>
        dsimp only at h1
        cases hb : executeBatch sta sets emap as with
        | mk stb r2 =>
          rw [hb] at h1
          cases r2 with
          | error eb =>
            have hsnd := congrArg Prod.snd h1
            simp at hsnd
          | ok mb =>
            dsimp only at h1
            have hst : stb = st1 := congrArg Prod.fst h1
            subst hst
            have hx := ih sta mb hb
            dsimp only
            rw [hx]

/-- Concrete instance of the fail-fast batch behaviour. -/
theorem c2_batch_aborts_at_first_error_witness :
    executeBatch demoSt [benchSet] demoMap ([] ++ badRemove :: []) =
      (demoSt, .error "Could not resolve set_id for remove_set command") :=
  c2_batch_aborts_at_first_error demoSt [benchSet] demoMap [] badRemove [] demoSt demoSt []
    "Could not resolve set_id for remove_set command" rfl rfl

/-- C3 counterexample: a negative integer reps value is accepted, not
rejected — deserializing the integer -1 yields Ok (some (-1)). Only negative
or non-finite float forms fail. -/
theorem c3_counterexample :
    parseJsonText "\x7b\"reps\": -1\x7d" = .ok (Json.obj [("reps", Json.int (-1))]) ∧
    deserialize_reps (Json.int (-1)) = .ok (some (-1)) := ⟨rfl, rfl⟩

/-- C3: integer and float forms deserialize identically on non-negative
inputs (5 and 5.0 both give 5); a finite non-negative float is rounded half
away from zero and clamped to the i32 range; negative or non-finite floats
fail — but negative integers pass through unvalidated. -/
theorem c3_reps_coercion :
    (parsedSetFromText "\x7b\"exercise\":\"bench\",\"reps\":5,\"set_count\":2,\"tags\":[]\x7d" =
      .ok { exercise := "bench", weight := none, reps := some 5, rpe := none,
            set_count := some 2, tags := [], aoi := none, original_string := "" }) ∧
    (∃ q : ℚ, parseJsonText "\x7b\"reps\": 5.0\x7d" =
        .ok (.obj [("reps", .float (.finite q))]) ∧ q = 5 ∧
      deserialize_reps (.float (.finite q)) = .ok (some 5) ∧
      deserialize_reps (.int 5) = .ok (some 5)) ∧
    (∀ n : ℤ, -(2 ^ 31) ≤ n → n < 2 ^ 31 → deserialize_reps (.int n) = .ok (some n)) ∧
    (∀ q : ℚ, 0 ≤ q → deserialize_reps (.float (.finite q)) = .ok (some (satI32 (roundHalfAway q)))) ∧
    (∀ q : ℚ, q < 0 → (deserialize_reps (.float (.finite q))).toOption = none) ∧
    (deserialize_reps (.float .nan)).toOption = none ∧
    (deserialize_reps (.float .inf)).toOption = none ∧
    (deserialize_reps (.float .neginf)).toOption = none := by
  have hint : ∀ n : ℤ, -(2 ^ 31) ≤ n → n < 2 ^ 31 → deserialize_reps (.int n) = .ok (some n) := by
    intro n h1 h2
    have e1 : (-(2 ^ 31) : ℤ) = -2147483648 := by norm_num
    have e2 : ((2 ^ 31) : ℤ) = 2147483648 := by norm_num
    rw [e1] at h1; rw [e2] at h2
    simp [deserialize_reps, intOrFloatFromJson, bind, Except.bind, h1, h2]
  have hfloat : ∀ q : ℚ, 0 ≤ q →
      deserialize_reps (.float (.finite q)) = .ok (some (satI32 (roundHalfAway q))) := by
    intro q hq
    simp [deserialize_reps, intOrFloatFromJson, F64.isFinite, F64.nonneg, hq, bind, Except.bind]
  have ht5 : List.takeWhile Char.isDigit ['5', '.', '0', '\x7d'] = ['5'] := rfl
  have ht0 : List.takeWhile Char.isDigit ['0', '\x7d'] = ['0'] := rfl
  have hd5 : digitsNat ['5'] = 5 := rfl
  have hd0 : digitsNat ['0'] = 0 := rfl
  have hs5 : satI32 (roundHalfAway 5) = 5 := by norm_num [roundHalfAway, satI32]
  refine ⟨rfl, ?_, hint, hfloat, ?_, rfl, rfl, rfl⟩
  · have hq5 : (((digitsNat (List.takeWhile Char.isDigit ['5', '.', '0', '\x7d']) : ℚ) +
        (digitsNat (List.takeWhile Char.isDigit ['0', '\x7d']) : ℚ) /
          10 ^ (List.takeWhile Char.isDigit ['0', '\x7d']).length) : ℚ) = 5 := by
      rw [ht5, ht0, hd5, hd0]
      norm_num
    refine ⟨_, rfl, ?_, ?_, hint 5 (by norm_num) (by norm_num)⟩
    · simp only [Bool.false_eq_true, if_false, zpow_zero, mul_one]
      exact hq5
    · simp only [Bool.false_eq_true, if_false, zpow_zero, mul_one, hq5]
      have h := hfloat 5 (by norm_num)
      rw [hs5] at h
      exact h
  · intro q hq
    simp [deserialize_reps, intOrFloatFromJson, F64.isFinite, F64.nonneg,
      Except.toOption, not_le.mpr hq, bind, Except.bind]

/-- Concrete instances of the reps coercion behaviour. -/
theorem c3_reps_coercion_witness :
    deserialize_reps (Json.int (-1)) = .ok (some (-1)) ∧
    deserialize_reps (Json.float (.finite (5 / 2))) = .ok (some 3) ∧
    (deserialize_reps (Json.float (.finite (-3 / 2)))).toOption = none := by
  refine ⟨c3_reps_coercion.2.2.1 (-1) (by norm_num) (by norm_num), ?_,
    c3_reps_coercion.2.2.2.2.1 (-3 / 2) (by norm_num)⟩
  have h := c3_reps_coercion.2.2.2.1 (5 / 2) (by norm_num)
  have h2 : satI32 (roundHalfAway (5 / 2)) = 3 := by norm_num [roundHalfAway, satI32]
  rw [h2] at h
  exact h

/-- C4 counterexample: an update with none of the optional fields set clears
the stored notes — the UPDATE statement always writes the notes column from
the request, so a no-op edit of a row whose notes were "felt strong" leaves
notes = none. -/
theorem c4_counterexample :
    notedSet.notes = some "felt strong" ∧
    (updateWorkoutSet notedDb notedSet.id ({} : UpdateWorkoutSet)).toOption.map
      (fun p => p.2.notes) = some none := ⟨rfl, rfl⟩

/-- C4: an update touching only weight leaves reps, rpe, exercise_id,
session_id and set_index unchanged, but notes is overwritten unconditionally
with the request value (none when absent): an empty update returns the row
with its notes cleared and updated_at refreshed. -/
theorem c4_partial_update_frame : ∀ (row : WorkoutSet) (w : Option F64) (now : ℤ),
    (applyUpdateRow row { weight := w } now).reps = row.reps ∧
    (applyUpdateRow row { weight := w } now).rpe = row.rpe ∧
    (applyUpdateRow row { weight := w } now).exercise_id = row.exercise_id ∧
    (applyUpdateRow row { weight := w } now).session_id = row.session_id ∧
    (applyUpdateRow row { weight := w } now).set_index = row.set_index ∧
    (applyUpdateRow row { weight := w } now).weight = w.getD row.weight ∧
    (applyUpdateRow row { weight := w } now).notes = none ∧
    applyUpdateRow row {} now = { row with notes := none, updated_at := now } := by
  intro row w now
  exact ⟨rfl, rfl, rfl, rfl, rfl, rfl, rfl, rfl⟩

/-- Concrete instance of the partial-update frame conditions. -/
theorem c4_partial_update_frame_witness :
    (applyUpdateRow benchSet { weight := some (F64.finite 90) } 300).reps = benchSet.reps ∧
    (applyUpdateRow benchSet { weight := some (F64.finite 90) } 300).rpe = benchSet.rpe ∧
    (applyUpdateRow benchSet { weight := some (F64.finite 90) } 300).exercise_id = benchSet.exercise_id ∧
    (applyUpdateRow benchSet { weight := some (F64.finite 90) } 300).session_id = benchSet.session_id ∧
    (applyUpdateRow benchSet { weight := some (F64.finite 90) } 300).set_index = benchSet.set_index ∧
    (applyUpdateRow benchSet { weight := some (F64.finite 90) } 300).weight =
      (some (F64.finite 90)).getD benchSet.weight ∧
    (applyUpdateRow benchSet { weight := some (F64.finite 90) } 300).notes = none ∧
    applyUpdateRow benchSet {} 300 = { benchSet with notes := none, updated_at := 300 } :=
  c4_partial_update_frame benchSet (some (F64.finite 90)) 300

/-- C5: "second to last set" resolves to the MOST recent set, not the second
most recent. The description contains the substring "last", so the global
"last" branch fires before the "second to last" branch is ever reached: the
result is the squat set (most recent), while the second most recent is the
bench set. -/
theorem c5_second_to_last_returns_most_recent :
    resolveSetIdFromDescription "second to last set" [benchSet, squatSet] demoMap = some squatSet.id ∧
    (sortMostRecentFirst [benchSet, squatSet]).map (fun s => s.id) = [squatSet.id, benchSet.id] ∧
    squatSet.id ≠ benchSet.id := ⟨rfl, rfl, by decide⟩

/-- C6: the per-exercise history block keeps the OLDEST ten sets, not the
most recent ten. With eleven bench sets created at times 1..11, the history
rows are those created at 1..10 in ascending order, the most recent set
(time 11) is absent, and the most recent ten would have been 2..11. -/
theorem c6_history_returns_oldest_ten :
    (historyTake histDb benchExercise.id).map (fun s => s.created_at) = intRange 1 10 ∧
    ((sortMostRecentFirst histDb.sets).take 10).map (fun s => s.created_at) = (intRange 2 10).reverse ∧
    (11 : ℤ) ∈ histDb.sets.map (fun s => s.created_at) ∧
    (11 : ℤ) ∉ (historyTake histDb benchExercise.id).map (fun s => s.created_at) := by
  refine ⟨by decide, by decide, by decide, by decide⟩

/-- C7: over any sequence of single- and multi-set additions from an empty
store, the set_index values assigned to one (session, exercise) pair are
exactly 1, 2, 3, ... in creation order — consecutive and strictly increasing,
regardless of interleaving with additions for other pairs. -/
theorem c7_set_indices_consecutive_from_one (ops : List AddOp) (sid eid now : ℤ) :
    eventsFor (runAdds (emptyDb now) ops).2 sid eid =
      intRange 1 (opCount sid eid ops) ∧
    (eventsFor (runAdds (emptyDb now) ops).2 sid eid).Pairwise (· < ·) := by
  have hInv : IndexInv (emptyDb now) sid eid := by
    unfold IndexInv maxSetIndex pairIndices emptyDb
    simp
  obtain ⟨h1, _, _⟩ := runAdds_spec sid eid ops (emptyDb now) hInv
  have hlen : ((pairIndices (emptyDb now) sid eid).length : ℤ) = 0 := by
    simp [pairIndices, emptyDb]
  rw [hlen, zero_add] at h1
  refine ⟨h1, ?_⟩
  rw [h1]
  exact pairwise_intRange 1 _

/-- Concrete instance: one single add, one double add and an add for another
exercise give pair (1, 1) the indices 1, 2, 3. -/
theorem c7_set_indices_consecutive_from_one_witness :
    eventsFor (runAdds (emptyDb 0)
        [AddOp.single 1 1 1 (F64.finite 100) 5 none,
         AddOp.multi 1 1 1 (F64.finite 80) 8 none 2,
         AddOp.single 1 2 1 (F64.finite 60) 10 none]).2 1 1 =
      intRange 1 (opCount 1 1
        [AddOp.single 1 1 1 (F64.finite 100) 5 none,
         AddOp.multi 1 1 1 (F64.finite 80) 8 none 2,
         AddOp.single 1 2 1 (F64.finite 60) 10 none]) ∧
    (eventsFor (runAdds (emptyDb 0)
        [AddOp.single 1 1 1 (F64.finite 100) 5 none,
         AddOp.multi 1 1 1 (F64.finite 80) 8 none 2,
         AddOp.single 1 2 1 (F64.finite 60) 10 none]).2 1 1).Pairwise (· < ·) :=
  c7_set_indices_consecutive_from_one
    [AddOp.single 1 1 1 (F64.finite 100) 5 none,
     AddOp.multi 1 1 1 (F64.finite 80) 8 none 2,
     AddOp.single 1 2 1 (F64.finite 60) 10 none] 1 1 0

/-- C8 counterexample: a payload that itself starts and ends with triple
backticks is damaged by fence stripping — its fenced and unfenced forms parse
differently (the fenced form no longer parses at all). -/
theorem c8_counterexample :
    strip_code_fences "```5```" = "5" ∧
    strip_code_fences "```json\n```5```\n```" = "```5```" ∧
    parseJsonText (strip_code_fences "```5```") = .ok (Json.int 5) ∧
    (parseJsonText (strip_code_fences "```json\n```5```\n```")).toOption = none :=
  ⟨rfl, rfl, rfl, rfl⟩

/-- C8: for payloads that do not themselves start or end with a code fence
after trimming, a json fence or a bare fence is stripped to exactly the
trimmed payload, and the fenced and unfenced forms parse identically. -/
theorem c8_fence_stripping (s : String)
    (h1 : leadMatch "```".data (trimL s.data) = none)
    (h2 : trailMatch "```".data (trimL s.data) = none) :
    strip_code_fences ("```json\n" ++ s ++ "\n```") = rustTrim s ∧
    strip_code_fences ("```\n" ++ s ++ "\n```") = rustTrim s ∧
    strip_code_fences s = rustTrim s ∧
    parseJsonText (strip_code_fences ("```json\n" ++ s ++ "\n```")) =
      parseJsonText (strip_code_fences s) := by
  have hd1 : ("```json\n" ++ s ++ "\n```").data =
      ['`', '`', '`', 'j', 's', 'o', 'n', '\n'] ++ (s.data ++ ['\n', '`', '`', '`']) := by
    rw [String.data_append, String.data_append, List.append_assoc]
  have hd2 : ("```\n" ++ s ++ "\n```").data =
      ['`', '`', '`', '\n'] ++ (s.data ++ ['\n', '`', '`', '`']) := by
    rw [String.data_append, String.data_append, List.append_assoc]
  have hjson : strip_code_fences ("```json\n" ++ s ++ "\n```") = rustTrim s := by
    have hl : stripFencesL ("```json\n" ++ s ++ "\n```").data = trimL s.data := by
      rw [hd1]
      exact stripFencesL_json_fence s.data
    exact congrArg String.mk hl
  have hbare : strip_code_fences ("```\n" ++ s ++ "\n```") = rustTrim s := by
    have hl : stripFencesL ("```\n" ++ s ++ "\n```").data = trimL s.data := by
      rw [hd2]
      exact stripFencesL_bare_fence s.data
    exact congrArg String.mk hl
  have hun : strip_code_fences s = rustTrim s :=
    congrArg String.mk (stripFencesL_unfenced s.data h1 h2)
  exact ⟨hjson, hbare, hun, by rw [hjson, hun]⟩

/-- Concrete instance of fence stripping on the empty command list payload. -/
theorem c8_fence_stripping_witness :
    strip_code_fences ("```json\n" ++ "\x7b\"commands\":[]\x7d" ++ "\n```") =
      rustTrim "\x7b\"commands\":[]\x7d" ∧
    strip_code_fences ("```\n" ++ "\x7b\"commands\":[]\x7d" ++ "\n```") =
      rustTrim "\x7b\"commands\":[]\x7d" ∧
    strip_code_fences "\x7b\"commands\":[]\x7d" = rustTrim "\x7b\"commands\":[]\x7d" ∧
    parseJsonText (strip_code_fences ("```json\n" ++ "\x7b\"commands\":[]\x7d" ++ "\n```")) =
      parseJsonText (strip_code_fences "\x7b\"commands\":[]\x7d") :=
  c8_fence_stripping "\x7b\"commands\":[]\x7d" rfl rfl

/-- C9: with an active workout, when classification yields an empty command
list, process_user_input returns Ok [] and leaves the state unchanged. -/
theorem c9_empty_commands_ok (st : St) (responder : String → String → String) (input : String)
    (selected : Option ℤ) (visible : List ℤ) (wid : ℤ)
    (h1 : st.workout_id = some wid)
    (h2 : classifyStage st responder input selected visible = .ok []) :
    processUserInput st responder input selected visible = (st, .ok []) := by
  simp [processUserInput, h1, h2]

/-- Concrete instance: a fenced empty commands response yields Ok []. -/
theorem c9_empty_commands_ok_witness :
    processUserInput demoSt emptyResponder "done for today" none [] = (demoSt, .ok []) :=
  c9_empty_commands_ok demoSt emptyResponder "done for today" none [] 1 rfl rfl

/-- C10: removing a set id that matches no stored set still succeeds — the
delete affects zero rows, the state is unchanged, and the command reports one
SetRemoved modification whose exercise_id is none. -/
theorem c10_remove_missing_set_ok (st : St) (sets : List WorkoutSet) (emap : List (ℤ × String))
    (set_id wid : ℤ) (desc : Option String)
    (h1 : st.workout_id = some wid)
    (h2 : ∀ s ∈ st.db.sets, s.id ≠ set_id) :
    executeCommand st sets emap (.removeSet (some set_id) desc) =
      (st, .ok [{ modification_type := .setRemoved, set_id := some set_id,
                  set_ids := [set_id], exercise_id := none, set := none,
                  sets := none, exercise := none }]) ∧
    (deleteWorkoutSet st.db set_id).2 = 0 := by
  rcases st with ⟨swid, sdb⟩
  simp only [St.workout_id] at h1
  subst h1
  simp only [St.db] at h2
  have hfind : (getSetsForSession sdb wid).find? (fun s => s.id = set_id) = none := by
    apply List.find?_eq_none.mpr
    intro s hs
    have hmem : s ∈ sdb.sets := by
      have hmem2 := (mem_sortByStable (l := sdb.sets.filter (fun s => s.session_id = wid))).mp hs
      exact (List.mem_filter.mp hmem2).1
    simpa using h2 s hmem
  have hcount : sdb.sets.filter (fun s => s.id = set_id) = [] := by
    rw [List.filter_eq_nil_iff]
    intro s hs
    simpa using h2 s hs
  have hkeep : sdb.sets.filter (fun s => ¬s.id = set_id) = sdb.sets := by
    rw [List.filter_eq_self]
    intro s hs
    simpa using h2 s hs
  have hdel : deleteWorkoutSet sdb set_id = (sdb, 0) := by
    unfold deleteWorkoutSet
    rw [hcount, hkeep]
    rfl
  constructor
  · simp only [executeCommand, deleteSetWithModifications]
    rw [hfind, hdel]
    simp
  · rw [hdel]

/-- Concrete instance: removing the absent id 99 succeeds, changing nothing. -/
theorem c10_remove_missing_set_ok_witness :
    executeCommand demoSt [benchSet] demoMap (.removeSet (some 99) none) =
      (demoSt, .ok [{ modification_type := .setRemoved, set_id := some 99,
                      set_ids := [99], exercise_id := none, set := none,
                      sets := none, exercise := none }]) ∧
    (deleteWorkoutSet demoSt.db 99).2 = 0 :=
  c10_remove_missing_set_ok demoSt [benchSet] demoMap 99 1 none rfl (by decide)

end Yoku
